import Mathlib

/-!
# cat2sha: catalog members to checksum lines

A shallow embedding of `main.go`: the envelope unwrapping, the attribute
dispatcher `MemberAttributeContents`, the per-member selection of a
(name, digest) pair and the rendering of the output lines.

The generic DER decoder (`encoding/asn1`) and the UTF-16 decoder
(`golang.org/x/text/encoding/unicode`) are libraries outside the repository.
They are taken as parameters, bundled in `Lib`; every general theorem holds
for all their possible behaviours.  Standard output is a list of lines that
only grows, and a `log.Panic` stops the run with the lines written so far.
-/

namespace Cat2sha

/-! ## Data model -/

/-- One element of a Go `[]byte`. -/
abbrev Byte := Fin 256

/-- A Go `error` returned by a library call, kept as its message. -/
abbrev Error := String

/-- The value `asn1.RawValue`. -/
structure RawValue where
  Class : Int
  Tag : Int
  IsCompound : Bool
  Bytes : List Byte
  FullBytes : List Byte
deriving DecidableEq, Repr

/-- Zero value of `asn1.RawValue`. -/
def RawValue.zero : RawValue := ⟨0, 0, false, [], []⟩

/-- The type `asn1.ObjectIdentifier`, a Go `[]int`. -/
abbrev ObjectIdentifier := List Int

/-- The method `asn1.ObjectIdentifier.String`: the arcs in decimal, joined by dots. -/
def ObjectIdentifier.String (oi : ObjectIdentifier) : String :=
  ".".intercalate (oi.map fun v => toString v)

def binaryMarker : Char := '*'
def cnvNameFilename : String := "Filename"
def oidPKCS7SignedData : String := "1.2.840.113549.1.7.2"
def oidMSSpcIndirectData : String := "1.3.6.1.4.1.311.2.1.4"
def oidMSCabData : String := "1.3.6.1.4.1.311.2.1.25"
def oidMSCertTrustList : String := "1.3.6.1.4.1.311.10.1"
def oidMSCatalogList : String := "1.3.6.1.4.1.311.12.1.1"
def oidMSCatalogListMember : String := "1.3.6.1.4.1.311.12.1.2"
def oidMSCatalogListMemberV2 : String := "1.3.6.1.4.1.311.12.1.3"
def oidMSCatalogNameValue : String := "1.3.6.1.4.1.311.12.2.1"
def oidMSCatalogMemberInfo : String := "1.3.6.1.4.1.311.12.2.2"
def oidMSCatalogMemberInfo2 : String := "1.3.6.1.4.1.311.12.2.3"
def oidSHA1 : String := "1.3.14.3.2.26"
def oidSHA256 : String := "2.16.840.1.101.3.4.2.1"

structure contentInfo where
  ContentType : ObjectIdentifier
  Content : RawValue
deriving DecidableEq, Repr

structure signedData where
  Version : RawValue
  DigestAlgorithms : RawValue
  ContentInfo : contentInfo
  Certificates : RawValue
  Crls : RawValue
  SignerInfos : RawValue
deriving DecidableEq, Repr

structure memberAttribute where
  Oid : ObjectIdentifier
  Content : List RawValue
deriving DecidableEq, Repr

structure catalogListMember where
  Data : RawValue
  Attributes : List memberAttribute
deriving DecidableEq, Repr

structure certTrustList where
  CatalogListVersion : RawValue
  UnknownString : RawValue
  TrustUtcTime : RawValue
  CatalogListMemberId : RawValue
  Members : List catalogListMember
  Attributes : List RawValue
deriving DecidableEq, Repr

structure catalogNameValue where
  Name : String
  Flags : RawValue
  Value : List Byte
deriving DecidableEq, Repr

structure algorithmIdentifier where
  Algorithm : ObjectIdentifier
  Parameters : RawValue
deriving DecidableEq, Repr

structure digestInfo where
  DigestAlgorithm : algorithmIdentifier
  Digest : List Byte
deriving DecidableEq, Repr

structure spcIndirectData where
  Data : algorithmIdentifier
  MessageDigest : digestInfo
deriving DecidableEq, Repr

/-- The interface `memberAttributeContent`.  `MemberAttributeContents` only ever
stores a `catalogNameValue` or a `spcIndirectData` in it, and the type switch
of `main` has a case for each. -/
inductive memberAttributeContent where
  | catalogNameValue (mac : catalogNameValue)
  | spcIndirectData (mac : spcIndirectData)
deriving DecidableEq, Repr

/-- Zero value `contentInfo{}` (`var ci contentInfo`). -/
def contentInfo.zero : contentInfo := ⟨[], RawValue.zero⟩

/-- Zero value `signedData{}` (`var sd signedData`). -/
def signedData.zero : signedData :=
  ⟨RawValue.zero, RawValue.zero, contentInfo.zero, RawValue.zero, RawValue.zero, RawValue.zero⟩

/-- Zero value `certTrustList{}` (`var ctl certTrustList`). -/
def certTrustList.zero : certTrustList :=
  ⟨RawValue.zero, RawValue.zero, RawValue.zero, RawValue.zero, [], []⟩

/-- Zero value `catalogNameValue{}`. -/
def catalogNameValue.zero : catalogNameValue := ⟨"", RawValue.zero, []⟩

/-- Zero value `algorithmIdentifier{}`. -/
def algorithmIdentifier.zero : algorithmIdentifier := ⟨[], RawValue.zero⟩

/-- Zero value `spcIndirectData{}`. -/
def spcIndirectData.zero : spcIndirectData :=
  ⟨algorithmIdentifier.zero, ⟨algorithmIdentifier.zero, []⟩⟩

/-! ## Library calls and failure -/

/-- The library functions the program calls.  `asn1.Unmarshal(b, ptr)` is kept
per target type; it receives the bytes and the value currently stored behind
`ptr` (a field that is optional and absent keeps what was there) and gives the
value stored afterwards, or an error.  `utf16DecoderBytes` is
`utf16Decoder.Bytes`. -/
structure Lib where
  unmarshalContentInfo : List Byte → contentInfo → Except Error contentInfo
  unmarshalSignedData : List Byte → signedData → Except Error signedData
  unmarshalCertTrustList : List Byte → certTrustList → Except Error certTrustList
  unmarshalCatalogNameValue : List Byte → catalogNameValue → Except Error catalogNameValue
  unmarshalSpcIndirectData : List Byte → spcIndirectData → Except Error spcIndirectData
  utf16DecoderBytes : List Byte → Except Error String

/-- What a run stops with: `log.Panic(err)` or `log.Panicf(format, ...)`,
the latter with its rendered message. -/
inductive Panic where
  | error (err : Error)
  | message (s : String)
deriving DecidableEq, Repr

/-- Outcome of running a piece of the program: the lines written to standard
output, in order, and the panic that stopped it, if any. -/
structure Run where
  stdout : List String
  panic : Option Panic
deriving DecidableEq, Repr

/-! ## Formatting -/

/-- The table `hextable` of `encoding/hex`. -/
def hextable : List Char := "0123456789abcdef".toList

/-- The function `hex.EncodeToString`: for each byte `v`, `hextable[v>>4]` then
`hextable[v&0x0f]`. -/
def EncodeToString (src : List Byte) : String :=
  String.mk (src.flatMap fun v =>
    [hextable.getD (v.val >>> 4) '0', hextable.getD (v.val &&& 0x0f) '0'])

/-- The call `fmt.Printf("%s %c%s\n", hash, binaryMarker, name)` of line 190,
as the text it writes. -/
def printfLine (hash : String) (marker : Char) (name : String) : String :=
  hash ++ " " ++ String.singleton marker ++ name ++ "\n"

/-! ## Attribute dispatcher (lines 69-99) -/

/-- The loop of lines 88-96 for one target type: `cur` is the value behind
`ptr`, each entry is unmarshalled into it and a copy of it is appended. -/
def decodeEntries {α : Type} (unmarshal : List Byte → α → Except Error α)
    (wrap : α → memberAttributeContent) :
    List RawValue → α → List memberAttributeContent → Except Panic (List memberAttributeContent)
  | [], _, macs => .ok macs
  | content :: rest, cur, macs =>
    match unmarshal content.FullBytes cur with
    | .error err => .error (.error err)
    | .ok cur1 => decodeEntries unmarshal wrap rest cur1 (macs ++ [wrap cur1])

/-- The method `(*memberAttribute).MemberAttributeContents`. -/
def MemberAttributeContents (L : Lib) (ma : memberAttribute) :
    Except Panic (List memberAttributeContent) :=
  let oid := ma.Oid.String
  if oid = oidMSCatalogNameValue then
    decodeEntries L.unmarshalCatalogNameValue .catalogNameValue ma.Content catalogNameValue.zero []
  else if oid = oidMSCatalogMemberInfo then
    .ok []
  else if oid = oidMSCatalogMemberInfo2 then
    .ok []
  else if oid = oidMSSpcIndirectData then
    decodeEntries L.unmarshalSpcIndirectData .spcIndirectData ma.Content spcIndirectData.zero []
  else
    .error (.message (oid ++ " defaulted"))

/-! ## Member resolver and main loop (lines 151-191) -/

/-- Lines 152-156: the contents of the attributes of a member, appended to
`macses` in attribute order. -/
def collectContents (L : Lib) :
    List memberAttribute → List memberAttributeContent → Except Panic (List memberAttributeContent)
  | [], macses => .ok macses
  | attr :: rest, macses =>
    match MemberAttributeContents L attr with
    | .error p => .error p
    | .ok macs => collectContents L rest (macses ++ macs)

/-- One iteration of the loop of lines 160-177 on the pair (`cnv`, `sid`). -/
def selectStep (st : Option catalogNameValue × Option spcIndirectData)
    (mac : memberAttributeContent) : Option catalogNameValue × Option spcIndirectData :=
  match mac with
  | .catalogNameValue mac =>
    if mac.Name ≠ cnvNameFilename then st
    else (some mac, st.2)
  | .spcIndirectData mac =>
    if mac.Data.Algorithm.String ≠ oidMSCabData then st
    else if mac.MessageDigest.DigestAlgorithm.Algorithm.String ≠ oidSHA1
        ∧ mac.MessageDigest.DigestAlgorithm.Algorithm.String ≠ oidSHA256 then st
    else (st.1, some mac)

/-- Lines 158-177: `cnv` and `sid` start nil and the contents are visited in order. -/
def selectPair (macses : List memberAttributeContent) :
    Option catalogNameValue × Option spcIndirectData :=
  macses.foldl selectStep (none, none)

/-- Lines 179-190 for the pair found in a member: the line to print, `none`
when the member is skipped, or the panic of line 185. -/
def renderPair (L : Lib) :
    Option catalogNameValue × Option spcIndirectData → Except Panic (Option String)
  | (some cnv, some sid) =>
    match L.utf16DecoderBytes cnv.Value with
    | .error err => .error (.error err)
    | .ok name => .ok (some (printfLine (EncodeToString sid.MessageDigest.Digest) binaryMarker name))
  | _ => .ok none

/-- The body of the loop over the members (lines 152-190) for one member. -/
def memberBody (L : Lib) (member : catalogListMember) : Except Panic (Option String) :=
  match collectContents L member.Attributes [] with
  | .error p => .error p
  | .ok macses => renderPair L (selectPair macses)

/-- The loop of lines 151-191, started with `out` already written. -/
def memberLoop (L : Lib) : List catalogListMember → List String → Run
  | [], out => ⟨out, none⟩
  | member :: rest, out =>
    match memberBody L member with
    | .error p => ⟨out, some p⟩
    | .ok none => memberLoop L rest out
    | .ok (some line) => memberLoop L rest (out ++ [line])

/-! ## Envelope unwrapping (lines 130-149) and `main` -/

/-- Lines 130-149: from the input bytes to the decoded trust list. -/
def unwrap (L : Lib) (bytes : List Byte) : Except Panic certTrustList :=
  match L.unmarshalContentInfo bytes contentInfo.zero with
  | .error err => .error (.error err)
  | .ok ci =>
    if ci.ContentType.String ≠ oidPKCS7SignedData then
      .error (.message (ci.ContentType.String ++ " != oidPKCS7SignedData"))
    else
      match L.unmarshalSignedData ci.Content.Bytes signedData.zero with
      | .error err => .error (.error err)
      | .ok sd =>
        if sd.ContentInfo.ContentType.String ≠ oidMSCertTrustList then
          .error (.message (sd.ContentInfo.ContentType.String ++ " != oidMSCertTrustList"))
        else
          match L.unmarshalCertTrustList sd.ContentInfo.Content.Bytes certTrustList.zero with
          | .error err => .error (.error err)
          | .ok ctl => .ok ctl

/-- The function `main`; `stdin` is the result of `io.ReadAll(os.Stdin)`. -/
def main (L : Lib) (stdin : Except Error (List Byte)) : Run :=
  match stdin with
  | .error err => ⟨[], some (.error err)⟩
  | .ok bytes =>
    match unwrap L bytes with
    | .error p => ⟨[], some p⟩
    | .ok ctl => memberLoop L ctl.Members []

/-! ## Name decoder and example inputs

The theorems below hold for every `Lib`.  To run the program on concrete
inputs, `exampleLib` pairs the name decoder described in the specification
with a DER decoder that knows the encodings of a fixed list of values. -/

/-- Little-endian 16-bit code units of a byte sequence; `none` when a byte is
left over. -/
def codeUnits : List Byte → Option (List Nat)
  | [] => some []
  | [_] => none
  | lo :: hi :: rest => (codeUnits rest).map fun us => (lo.val + 256 * hi.val) :: us

/-- Text of a sequence of UTF-16 code units; a surrogate that is not part of a
high-low pair is an error. -/
def decodeUnits : List Nat → Except Error (List Char)
  | [] => .ok []
  | [u] =>
    if 0xD800 ≤ u ∧ u < 0xE000 then .error "invalid code-unit sequence"
    else .ok [Char.ofNat u]
  | u :: v :: rest =>
    if 0xD800 ≤ u ∧ u < 0xDC00 then
      if 0xDC00 ≤ v ∧ v < 0xE000 then
        match decodeUnits rest with
        | .error err => .error err
        | .ok cs => .ok (Char.ofNat (0x10000 + (u - 0xD800) * 0x400 + (v - 0xDC00)) :: cs)
      else .error "invalid code-unit sequence"
    else if 0xDC00 ≤ u ∧ u < 0xE000 then .error "invalid code-unit sequence"
    else
      match decodeUnits (v :: rest) with
      | .error err => .error err
      | .ok cs => .ok (Char.ofNat u :: cs)

/-- Modelled from the spec: the name decoder of section 4.4, which stands for the
library decoder `utf16Decoder` (little-endian 16-bit code units, no byte-order
mark, failing on an invalid code-unit sequence such as an unpaired surrogate). -/
def utf16leDecode (b : List Byte) : Except Error String :=
  match codeUnits b with
  | none => .error "invalid code-unit sequence"
  | some us =>
    match decodeUnits us with
    | .error err => .error err
    | .ok cs => .ok (String.mk cs)

/-- Little-endian 16-bit code units of one character, as bytes. -/
def encodeChar (c : Char) : List Byte :=
  let n := c.toNat
  if n < 0x10000 then [Fin.ofNat (n % 256), Fin.ofNat (n / 256)]
  else
    let hi := 0xD800 + (n - 0x10000) / 0x400
    let lo := 0xDC00 + (n - 0x10000) % 0x400
    [Fin.ofNat (hi % 256), Fin.ofNat (hi / 256), Fin.ofNat (lo % 256), Fin.ofNat (lo / 256)]

/-- Modelled from the spec: the encoding of a text as little-endian 16-bit code
units with no byte-order mark, the inverse direction of the name decoder. -/
def utf16leEncode (s : String) : List Byte :=
  s.toList.flatMap encodeChar

/-- DER length octets. -/
def derLength (n : Nat) : List Byte :=
  if n < 128 then [Fin.ofNat n]
  else if n < 256 then [0x81, Fin.ofNat n]
  else [0x82, Fin.ofNat (n / 256), Fin.ofNat (n % 256)]

/-- DER element with identifier octet `tag` and the given contents. -/
def tlv (tag : Byte) (content : List Byte) : List Byte :=
  tag :: (derLength content.length ++ content)

/-- The `asn1.RawValue` that decoding the element `tlv tag content` gives. -/
def rawElement (tag : Byte) (content : List Byte) : RawValue :=
  ⟨(tag.val / 64 : Nat), (tag.val % 32 : Nat), decide (tag.val / 32 % 2 = 1), content, tlv tag content⟩

/-- Base-128 groups of an arc above the lowest one, each with the continuation bit. -/
def arcHigh : Nat → Nat → List Byte
  | 0, _ => []
  | fuel + 1, n => if n = 0 then [] else arcHigh fuel (n / 128) ++ [Fin.ofNat (128 + n % 128)]

/-- Base-128 octets of one arc. -/
def arcBytes (n : Nat) : List Byte :=
  arcHigh 9 (n / 128) ++ [Fin.ofNat (n % 128)]

/-- Contents octets of a DER object identifier. -/
def oidContent : ObjectIdentifier → List Byte
  | a :: b :: rest => arcBytes (40 * a.toNat + b.toNat) ++ rest.flatMap fun v => arcBytes v.toNat
  | _ => []

def encContentInfo (ci : contentInfo) : List Byte :=
  tlv 0x30 (tlv 0x06 (oidContent ci.ContentType) ++ ci.Content.FullBytes)

def encSignedData (sd : signedData) : List Byte :=
  tlv 0x30 (sd.Version.FullBytes ++ sd.DigestAlgorithms.FullBytes ++ encContentInfo sd.ContentInfo
    ++ sd.Certificates.FullBytes ++ sd.Crls.FullBytes ++ sd.SignerInfos.FullBytes)

def encMemberAttribute (ma : memberAttribute) : List Byte :=
  tlv 0x30 (tlv 0x06 (oidContent ma.Oid) ++ tlv 0x31 (ma.Content.flatMap fun c => c.FullBytes))

def encCatalogListMember (m : catalogListMember) : List Byte :=
  tlv 0x30 (m.Data.FullBytes ++ tlv 0x31 (m.Attributes.flatMap encMemberAttribute))

def encCertTrustList (ctl : certTrustList) : List Byte :=
  tlv 0x30 (ctl.CatalogListVersion.FullBytes ++ ctl.UnknownString.FullBytes
    ++ ctl.TrustUtcTime.FullBytes ++ ctl.CatalogListMemberId.FullBytes
    ++ tlv 0x30 (ctl.Members.flatMap encCatalogListMember))

/-- Contents octets of the DER sequence of a `catalogNameValue`. -/
def bodyCatalogNameValue (nv : catalogNameValue) : List Byte :=
  tlv 0x0C (nv.Name.toList.flatMap fun c => (String.utf8EncodeChar c).map fun u => u.val)
    ++ nv.Flags.FullBytes ++ tlv 0x04 nv.Value

def encCatalogNameValue (nv : catalogNameValue) : List Byte :=
  tlv 0x30 (bodyCatalogNameValue nv)

def encAlgorithmIdentifier (a : algorithmIdentifier) : List Byte :=
  tlv 0x30 (tlv 0x06 (oidContent a.Algorithm) ++ a.Parameters.FullBytes)

/-- Contents octets of the DER sequence of a `spcIndirectData`. -/
def bodySpcIndirectData (sid : spcIndirectData) : List Byte :=
  encAlgorithmIdentifier sid.Data
    ++ tlv 0x30 (encAlgorithmIdentifier sid.MessageDigest.DigestAlgorithm
      ++ tlv 0x04 sid.MessageDigest.Digest)

def encSpcIndirectData (sid : spcIndirectData) : List Byte :=
  tlv 0x30 (bodySpcIndirectData sid)

/-- A DER decoder that knows the values in `known`: the encoding of one of
them decodes to it, anything else is a structure error. -/
def decodeKnown {α : Type} (enc : α → List Byte) (known : List α) (b : List Byte) :
    Except Error α :=
  match known.find? fun v => enc v == b with
  | some v => .ok v
  | none => .error "asn1: structure error"

/-- A name-value entry as found in catalogs: the flags are an integer and the
value is the text in UTF-16LE. -/
def exNameValue (name text : String) : catalogNameValue :=
  ⟨name, rawElement 0x02 [0x10, 0x01, 0x00, 0x01], utf16leEncode text⟩

/-- The bytes `0x00, 0x01, ..., 0x1F`. -/
def exDigest : List Byte := (List.range 32).map fun n => Fin.ofNat n

/-- An indirect-data entry with the given data and digest algorithms, both
with NULL parameters. -/
def exIndirect (data digestAlg : ObjectIdentifier) (digest : List Byte) : spcIndirectData :=
  ⟨⟨data, rawElement 0x05 []⟩, ⟨⟨digestAlg, rawElement 0x05 []⟩, digest⟩⟩

/-- Cabinet data with a SHA-256 digest `0x00..0x1F`. -/
def exCabSha256 : spcIndirectData :=
  exIndirect [1, 3, 6, 1, 4, 1, 311, 2, 1, 25] [2, 16, 840, 1, 101, 3, 4, 2, 1] exDigest

/-- Cabinet data with a SHA-1 digest of twenty bytes `0xAB`. -/
def exCabSha1 : spcIndirectData :=
  exIndirect [1, 3, 6, 1, 4, 1, 311, 2, 1, 25] [1, 3, 14, 3, 2, 26] (List.replicate 20 0xAB)

/-- Cabinet data with an MD5 digest, an algorithm the program does not select. -/
def exCabMd5 : spcIndirectData :=
  exIndirect [1, 3, 6, 1, 4, 1, 311, 2, 1, 25] [1, 2, 840, 113549, 2, 5] (List.replicate 16 0xCD)

/-- PE image data (not cabinet data) with a SHA-256 digest. -/
def exPeSha256 : spcIndirectData :=
  exIndirect [1, 3, 6, 1, 4, 1, 311, 2, 1, 15] [2, 16, 840, 1, 101, 3, 4, 2, 1]
    (List.replicate 32 0xEF)

def knownNameValues : List catalogNameValue :=
  [exNameValue "Filename" "driver.sys", exNameValue "Filename" "a.txt",
   exNameValue "Filename" "b.txt", exNameValue "OSAttr" "2:6.1"]

def knownIndirects : List spcIndirectData :=
  [exCabSha256, exCabSha1, exCabMd5, exPeSha256]

/-- A catalog name-value attribute with the given entries. -/
def exNameAttribute (nvs : List catalogNameValue) : memberAttribute :=
  ⟨[1, 3, 6, 1, 4, 1, 311, 12, 2, 1], nvs.map fun nv => rawElement 0x30 (bodyCatalogNameValue nv)⟩

/-- An indirect-data attribute with the given entries. -/
def exDigestAttribute (sids : List spcIndirectData) : memberAttribute :=
  ⟨[1, 3, 6, 1, 4, 1, 311, 2, 1, 4], sids.map fun sid => rawElement 0x30 (bodySpcIndirectData sid)⟩

/-- A member-info attribute; its entry is not a name-value nor an indirect data. -/
def exInfoAttribute : memberAttribute :=
  ⟨[1, 3, 6, 1, 4, 1, 311, 12, 2, 2], [rawElement 0x30 (tlv 0x02 [0x07])]⟩

/-- An attribute of a type the program does not know. -/
def exUnknownAttribute : memberAttribute :=
  ⟨[1, 3, 6, 1, 4, 1, 311, 12, 2, 99], [rawElement 0x30 (tlv 0x02 [0x07])]⟩

/-- A member with the given attributes. -/
def exMember (attrs : List memberAttribute) : catalogListMember :=
  ⟨rawElement 0x04 [0xDE, 0xAD, 0xBE, 0xEF], attrs⟩

/-- One file `driver.sys` with a SHA-256 digest `0x00..0x1F`. -/
def exDriver : catalogListMember :=
  exMember [exNameAttribute [exNameValue "Filename" "driver.sys"], exInfoAttribute,
    exDigestAttribute [exCabSha256]]

/-- A member with `Filename` twice, `a.txt` then `b.txt`, other contents around
them, and SHA-1 then MD5 digests. -/
def exTwoNames : catalogListMember :=
  exMember [exNameAttribute [exNameValue "Filename" "a.txt", exNameValue "Filename" "b.txt",
      exNameValue "OSAttr" "2:6.1"],
    exDigestAttribute [exPeSha256, exCabSha1, exCabMd5]]

/-- A member with a name and no digest. -/
def exNoDigest : catalogListMember :=
  exMember [exNameAttribute [exNameValue "Filename" "a.txt"]]

/-- A member whose only attribute has an unknown type. -/
def exUnknown : catalogListMember :=
  exMember [exUnknownAttribute]

/-- A trust list with the given members. -/
def exTrustList (members : List catalogListMember) : certTrustList :=
  ⟨rawElement 0x30 (tlv 0x06 (oidContent [1, 3, 6, 1, 4, 1, 311, 12, 1, 1])),
   rawElement 0x04 [0x01, 0x02, 0x03, 0x04],
   rawElement 0x17 [0x32, 0x33, 0x30, 0x31, 0x30, 0x31, 0x30, 0x30, 0x30, 0x30, 0x30, 0x30, 0x5A],
   rawElement 0x30 (tlv 0x06 (oidContent [1, 3, 6, 1, 4, 1, 311, 12, 1, 2]) ++ tlv 0x05 []),
   members, []⟩

def knownTrustLists : List certTrustList :=
  [exTrustList [exDriver], exTrustList [exDriver, exNoDigest, exTwoNames],
   exTrustList [exDriver, exUnknown]]

/-- A SignedData around the given content, without certificates and CRLs. -/
def exSignedData (inner : contentInfo) : signedData :=
  ⟨rawElement 0x02 [0x01], rawElement 0x31 [], inner, RawValue.zero, RawValue.zero,
   rawElement 0x31 []⟩

/-- The signed content that carries a trust list. -/
def exInner (ctl : certTrustList) : contentInfo :=
  ⟨[1, 3, 6, 1, 4, 1, 311, 10, 1], rawElement 0xA0 (encCertTrustList ctl)⟩

/-- A signed content of type PKCS#7 data. -/
def exInnerData : contentInfo :=
  ⟨[1, 2, 840, 113549, 1, 7, 1], rawElement 0xA0 (tlv 0x04 [0x68, 0x69])⟩

def knownSignedData : List signedData :=
  exSignedData exInnerData :: knownTrustLists.map fun ctl => exSignedData (exInner ctl)

/-- The outer envelope of a SignedData. -/
def exOuter (sd : signedData) : contentInfo :=
  ⟨[1, 2, 840, 113549, 1, 7, 2], rawElement 0xA0 (encSignedData sd)⟩

/-- An outer envelope of type PKCS#7 data. -/
def exOuterData : contentInfo :=
  ⟨[1, 2, 840, 113549, 1, 7, 1], rawElement 0xA0 (tlv 0x04 [0x68, 0x69])⟩

def knownContentInfos : List contentInfo :=
  exOuterData :: knownSignedData.map exOuter

/-- The libraries on the example inputs: the DER decoder knows the encodings of
the values above, and names are decoded by `utf16leDecode`. -/
def exampleLib : Lib where
  unmarshalContentInfo b _ := decodeKnown encContentInfo knownContentInfos b
  unmarshalSignedData b _ := decodeKnown encSignedData knownSignedData b
  unmarshalCertTrustList b _ := decodeKnown encCertTrustList knownTrustLists b
  unmarshalCatalogNameValue b _ := decodeKnown encCatalogNameValue knownNameValues b
  unmarshalSpcIndirectData b _ := decodeKnown encSpcIndirectData knownIndirects b
  utf16DecoderBytes := utf16leDecode

/-- The input file for a trust list with the given members. -/
def exInput (members : List catalogListMember) : List Byte :=
  encContentInfo (exOuter (exSignedData (exInner (exTrustList members))))

/-! ## Notions of the specification -/

/-- A content that is a NameValue whose name is exactly "Filename". -/
def QualifyingName : memberAttributeContent → Prop
  | .catalogNameValue nv => nv.Name = "Filename"
  | .spcIndirectData _ => False

/-- A content that is an IndirectDigestData whose data algorithm is the
cabinet-data identifier and whose digest algorithm is SHA-1 or SHA-256. -/
def QualifyingDigest : memberAttributeContent → Prop
  | .catalogNameValue _ => False
  | .spcIndirectData sid =>
    sid.Data.Algorithm.String = "1.3.6.1.4.1.311.2.1.25"
      ∧ (sid.MessageDigest.DigestAlgorithm.Algorithm.String = "1.3.14.3.2.26"
        ∨ sid.MessageDigest.DigestAlgorithm.Algorithm.String = "2.16.840.1.101.3.4.2.1")

instance (mac : memberAttributeContent) : Decidable (QualifyingName mac) := by
  cases mac <;> unfold QualifyingName <;> infer_instance

instance (mac : memberAttributeContent) : Decidable (QualifyingDigest mac) := by
  cases mac <;> unfold QualifyingDigest <;> infer_instance

/-- The line that the loop body writes for a member, if it writes one. -/
def memberLine (L : Lib) (member : catalogListMember) : Option String :=
  match memberBody L member with
  | .ok (some line) => some line
  | _ => none

/-- Lowercase hexadecimal digit of a value below sixteen. -/
def lowerHexDigit (n : Nat) : Char :=
  if n < 10 then Char.ofNat (48 + n) else Char.ofNat (87 + n)

/-- Lowercase hexadecimal text of a byte sequence: two digits per byte, the
high one first, no separators. -/
def lowerHex (d : List Byte) : String :=
  String.mk (d.flatMap fun b => [lowerHexDigit (b.val / 16), lowerHexDigit (b.val % 16)])

/-- The value behind `ptr` in `MemberAttributeContents` once the given entries
have been unmarshalled into it in order, starting from `cur`. -/
def targetAfter {α : Type} (unmarshal : List Byte → α → Except Error α) :
    List RawValue → α → Except Error α
  | [], cur => .ok cur
  | content :: rest, cur =>
    match unmarshal content.FullBytes cur with
    | .error err => .error err
    | .ok cur1 => targetAfter unmarshal rest cur1

/-- The attribute type is none of the four identifiers that
`MemberAttributeContents` knows. -/
def UnknownAttributeType (ma : memberAttribute) : Prop :=
  ma.Oid.String ≠ "1.3.6.1.4.1.311.12.2.1" ∧ ma.Oid.String ≠ "1.3.6.1.4.1.311.12.2.2"
    ∧ ma.Oid.String ≠ "1.3.6.1.4.1.311.12.2.3" ∧ ma.Oid.String ≠ "1.3.6.1.4.1.311.2.1.4"

instance (ma : memberAttribute) : Decidable (UnknownAttributeType ma) := by
  unfold UnknownAttributeType; infer_instance

/-- The hex field of an output line: the text before its first space. -/
def hexField (line : String) : List Char :=
  line.toList.takeWhile fun c => c != ' '

/-- Value of a lowercase hexadecimal digit. -/
def hexValue (c : Char) : Nat :=
  if c.toNat < 58 then c.toNat - 48 else c.toNat - 87

/-- Two contents are of the same variant and agree on the fields other than the
NameValue flags and the algorithm parameters: name and value bytes, or data
algorithm, digest algorithm and digest bytes. -/
def SameVisible : memberAttributeContent → memberAttributeContent → Prop
  | .catalogNameValue a, .catalogNameValue b => a.Name = b.Name ∧ a.Value = b.Value
  | .spcIndirectData a, .spcIndirectData b =>
    a.Data.Algorithm = b.Data.Algorithm
      ∧ a.MessageDigest.DigestAlgorithm.Algorithm = b.MessageDigest.DigestAlgorithm.Algorithm
      ∧ a.MessageDigest.Digest = b.MessageDigest.Digest
  | _, _ => False

/-- Two attributes have the same type identifier and, unless that type is
unknown, both decode, to contents that agree position by position. -/
def SameAttribute (L : Lib) (a b : memberAttribute) : Prop :=
  a.Oid = b.Oid
    ∧ (UnknownAttributeType a
      ∨ ∃ ca cb, MemberAttributeContents L a = .ok ca ∧ MemberAttributeContents L b = .ok cb
          ∧ List.Forall₂ SameVisible ca cb)

/-- Two members have attributes that agree position by position. -/
def SameMember (L : Lib) (m n : catalogListMember) : Prop :=
  List.Forall₂ (SameAttribute L) m.Attributes n.Attributes

/-- The bytes of a pair of candidates that reach the output: the value of the
name and the digest. -/
def visiblePair (st : Option catalogNameValue × Option spcIndirectData) :
    Option (List Byte) × Option (List Byte) :=
  (st.1.map fun cnv => cnv.Value, st.2.map fun sid => sid.MessageDigest.Digest)

/-- UTF-16 code units of one character: itself below 0x10000, else a high and
a low surrogate. -/
def charUnits (c : Char) : List Nat :=
  if c.toNat < 0x10000 then [c.toNat]
  else [0xD800 + (c.toNat - 0x10000) / 0x400, 0xDC00 + (c.toNat - 0x10000) % 0x400]

/-! ## Further example inputs -/

/-- Cabinet data with a SHA-256 identifier and a digest of two bytes. -/
def exCabSha256Short : spcIndirectData :=
  exIndirect [1, 3, 6, 1, 4, 1, 311, 2, 1, 25] [2, 16, 840, 1, 101, 3, 4, 2, 1] [0xAB, 0xCD]

/-- Cabinet data with a SHA-1 digest whose two algorithm identifiers carry no
parameters. -/
def exCabSha1Bare : spcIndirectData :=
  ⟨⟨[1, 3, 6, 1, 4, 1, 311, 2, 1, 25], RawValue.zero⟩,
    ⟨⟨[1, 3, 14, 3, 2, 26], RawValue.zero⟩, List.replicate 20 0xAB⟩⟩

/-- What `asn1.Unmarshal` leaves behind `ptr` when the element decodes to `v`
and the target held `cur`: parameters that are absent from the element keep
the value of the target. -/
def keepAbsent (v cur : spcIndirectData) : spcIndirectData :=
  ⟨⟨v.Data.Algorithm,
      if v.Data.Parameters.FullBytes = [] then cur.Data.Parameters else v.Data.Parameters⟩,
    ⟨⟨v.MessageDigest.DigestAlgorithm.Algorithm,
        if v.MessageDigest.DigestAlgorithm.Parameters.FullBytes = [] then
          cur.MessageDigest.DigestAlgorithm.Parameters
        else v.MessageDigest.DigestAlgorithm.Parameters⟩,
      v.MessageDigest.Digest⟩⟩

def knownIndirects2 : List spcIndirectData :=
  knownIndirects ++ [exCabSha256Short, exCabSha1Bare]

/-- A member named `a.txt` whose SHA-256 digest has two bytes. -/
def exShort : catalogListMember :=
  exMember [exNameAttribute [exNameValue "Filename" "a.txt"],
    exDigestAttribute [exCabSha256Short]]

/-- A member named `a.txt` whose only digest is MD5. -/
def exOnlyMd5 : catalogListMember :=
  exMember [exNameAttribute [exNameValue "Filename" "a.txt"], exDigestAttribute [exCabMd5]]

/-- A trust list with one member `a.txt` holding a SHA-1 digest with NULL
parameters. -/
def exPlain : certTrustList :=
  exTrustList [exMember [exNameAttribute [exNameValue "Filename" "a.txt"],
    exDigestAttribute [exCabSha1]]]

/-- The trust list `exPlain` with other opaque fields: version, identifying
fields, attribute set, member data, and a digest without parameters. -/
def exPlainVariant : certTrustList :=
  ⟨rawElement 0x30 (tlv 0x06 (oidContent [1, 3, 6, 1, 4, 1, 311, 12, 1, 1])),
   rawElement 0x04 [0x09, 0x08, 0x07],
   rawElement 0x17 [0x32, 0x34, 0x30, 0x36, 0x33, 0x30, 0x31, 0x32, 0x30, 0x30, 0x30, 0x30, 0x5A],
   rawElement 0x30 (tlv 0x06 (oidContent [1, 3, 6, 1, 4, 1, 311, 12, 1, 3]) ++ tlv 0x05 []),
   [⟨rawElement 0x04 [0x00, 0x11], [exNameAttribute [exNameValue "Filename" "a.txt"],
      exDigestAttribute [exCabSha1Bare]]⟩],
   [rawElement 0x30 (tlv 0x02 [0x01])]⟩

def knownTrustLists2 : List certTrustList :=
  knownTrustLists ++ [exTrustList [exShort], exTrustList [exDriver, exOnlyMd5]]

/-- The libraries on more example inputs; the indirect-data decoder keeps the
parameters of its target when the element has none. -/
def exampleLib2 : Lib where
  unmarshalContentInfo b _ :=
    decodeKnown encContentInfo
      (exOuterData :: (exSignedData exInnerData
        :: knownTrustLists2.map fun ctl => exSignedData (exInner ctl)).map exOuter) b
  unmarshalSignedData b _ :=
    decodeKnown encSignedData
      (exSignedData exInnerData :: knownTrustLists2.map fun ctl => exSignedData (exInner ctl)) b
  unmarshalCertTrustList b _ := decodeKnown encCertTrustList knownTrustLists2 b
  unmarshalCatalogNameValue b _ := decodeKnown encCatalogNameValue knownNameValues b
  unmarshalSpcIndirectData b cur :=
    match decodeKnown encSpcIndirectData knownIndirects2 b with
    | .error err => .error err
    | .ok v => .ok (keepAbsent v cur)
  utf16DecoderBytes := utf16leDecode

/-! ## The member loop -/

theorem memberLine_of_ok {L : Lib} {m : catalogListMember} {r : Option String}
    (h : memberBody L m = .ok r) : memberLine L m = r := by
  unfold memberLine
  rw [h]
  cases r <;> rfl

theorem memberLine_of_error {L : Lib} {m : catalogListMember} {p : Panic}
    (h : memberBody L m = .error p) : memberLine L m = none := by
  unfold memberLine
  rw [h]

/-- Shape of every run of the loop: either no member fails and the lines of
all members are appended, or the first failing member stops it after the lines
of the members before it. -/
theorem memberLoop_cases (L : Lib) (ms : List catalogListMember) (out : List String) :
    ((∀ m ∈ ms, ∃ r, memberBody L m = .ok r)
        ∧ memberLoop L ms out = ⟨out ++ ms.filterMap (memberLine L), none⟩)
    ∨ (∃ pre m post p, ms = pre ++ m :: post
        ∧ (∀ x ∈ pre, ∃ r, memberBody L x = .ok r)
        ∧ memberBody L m = .error p
        ∧ memberLoop L ms out = ⟨out ++ pre.filterMap (memberLine L), some p⟩) := by
  induction ms generalizing out with
  | nil => left; simp [memberLoop]
  | cons m rest ih =>
    cases hb : memberBody L m with
    | error p =>
      right
      exact ⟨[], m, rest, p, rfl, by simp, hb, by simp [memberLoop, hb]⟩
    | ok r =>
      have hline := memberLine_of_ok hb
      cases r with
      | none =>
        rcases ih out with ⟨hall, hrun⟩ | ⟨pre, x, post, p, hsplit, hpre, hx, hrun⟩
        · left
          refine ⟨?_, ?_⟩
          · intro y hy
            rcases List.mem_cons.mp hy with rfl | hy
            · exact ⟨_, hb⟩
            · exact hall y hy
          · simp [memberLoop, hb, hrun, List.filterMap_cons, hline]
        · right
          refine ⟨m :: pre, x, post, p, by simp [hsplit], ?_, hx, ?_⟩
          · intro y hy
            rcases List.mem_cons.mp hy with rfl | hy
            · exact ⟨_, hb⟩
            · exact hpre y hy
          · simp [memberLoop, hb, hrun, List.filterMap_cons, hline]
      | some line =>
        rcases ih (out ++ [line]) with ⟨hall, hrun⟩ | ⟨pre, x, post, p, hsplit, hpre, hx, hrun⟩
        · left
          refine ⟨?_, ?_⟩
          · intro y hy
            rcases List.mem_cons.mp hy with rfl | hy
            · exact ⟨_, hb⟩
            · exact hall y hy
          · simp [memberLoop, hb, hrun, List.filterMap_cons, hline]
        · right
          refine ⟨m :: pre, x, post, p, by simp [hsplit], ?_, hx, ?_⟩
          · intro y hy
            rcases List.mem_cons.mp hy with rfl | hy
            · exact ⟨_, hb⟩
            · exact hpre y hy
          · simp [memberLoop, hb, hrun, List.filterMap_cons, hline]

theorem main_of_unwrap {L : Lib} {bytes : List Byte} {ctl : certTrustList}
    (h : unwrap L bytes = .ok ctl) : main L (.ok bytes) = memberLoop L ctl.Members [] := by
  simp [main, h]

/-! ## Selection of the pair -/

theorem selectPair_concat (pre : List memberAttributeContent) (x : memberAttributeContent) :
    selectPair (pre ++ [x]) = selectStep (selectPair pre) x := by
  simp [selectPair, List.foldl_append]

theorem selectStep_name_hit (st : Option catalogNameValue × Option spcIndirectData)
    (nv : catalogNameValue) (h : nv.Name = "Filename") :
    (selectStep st (.catalogNameValue nv)).1 = some nv := by
  simp [selectStep, cnvNameFilename, h]

theorem selectStep_name_miss (st : Option catalogNameValue × Option spcIndirectData)
    (mac : memberAttributeContent) (h : ¬ QualifyingName mac) :
    (selectStep st mac).1 = st.1 := by
  cases mac with
  | catalogNameValue nv =>
    have hn : nv.Name ≠ "Filename" := h
    simp [selectStep, cnvNameFilename, hn]
  | spcIndirectData sid =>
    simp only [selectStep]
    split_ifs <;> rfl

theorem selectStep_digest_hit (st : Option catalogNameValue × Option spcIndirectData)
    (sid : spcIndirectData) (h : QualifyingDigest (.spcIndirectData sid)) :
    (selectStep st (.spcIndirectData sid)).2 = some sid := by
  obtain ⟨h1, h2⟩ := h
  rcases h2 with h2 | h2 <;> simp [selectStep, oidMSCabData, oidSHA1, oidSHA256, h1, h2]

theorem selectStep_digest_miss (st : Option catalogNameValue × Option spcIndirectData)
    (mac : memberAttributeContent) (h : ¬ QualifyingDigest mac) :
    (selectStep st mac).2 = st.2 := by
  cases mac with
  | catalogNameValue nv =>
    simp only [selectStep]
    split_ifs <;> rfl
  | spcIndirectData sid =>
    simp only [selectStep]
    split_ifs with h1 h2
    · rfl
    · rfl
    · exfalso
      apply h
      refine ⟨?_, ?_⟩
      · simpa [oidMSCabData] using h1
      · by_contra hne
        apply h2
        simp only [not_or] at hne
        exact ⟨by simpa [oidSHA1] using hne.1, by simpa [oidSHA256] using hne.2⟩

/-- The name candidate after the fold: none when no content qualifies, else
the last qualifying NameValue of the sequence. -/
theorem selectPair_name (macses : List memberAttributeContent) :
    ((selectPair macses).1 = none ∧ ∀ mac ∈ macses, ¬ QualifyingName mac)
    ∨ (∃ pre nv post, macses = pre ++ .catalogNameValue nv :: post
        ∧ nv.Name = "Filename" ∧ (∀ mac ∈ post, ¬ QualifyingName mac)
        ∧ (selectPair macses).1 = some nv) := by
  induction macses using List.reverseRecOn with
  | nil => left; simp [selectPair]
  | append_singleton init x ih =>
    rw [selectPair_concat]
    by_cases hq : QualifyingName x
    · right
      cases x with
      | catalogNameValue nv =>
        exact ⟨init, nv, [], rfl, hq, by simp, selectStep_name_hit _ nv hq⟩
      | spcIndirectData sid => exact absurd hq (by simp [QualifyingName])
    · rw [selectStep_name_miss _ x hq]
      rcases ih with ⟨hnone, hall⟩ | ⟨pre, nv, post, hsplit, hname, hpost, hsel⟩
      · left
        refine ⟨hnone, ?_⟩
        intro mac hmac
        rcases List.mem_append.mp hmac with hm | hm
        · exact hall mac hm
        · rw [List.mem_singleton.mp hm]
          exact hq
      · right
        refine ⟨pre, nv, post ++ [x], by simp [hsplit], hname, ?_, hsel⟩
        intro mac hmac
        rcases List.mem_append.mp hmac with hm | hm
        · exact hpost mac hm
        · rw [List.mem_singleton.mp hm]
          exact hq

/-- The digest candidate after the fold: none when no content qualifies, else
the last qualifying IndirectDigestData of the sequence. -/
theorem selectPair_digest (macses : List memberAttributeContent) :
    ((selectPair macses).2 = none ∧ ∀ mac ∈ macses, ¬ QualifyingDigest mac)
    ∨ (∃ pre sid post, macses = pre ++ .spcIndirectData sid :: post
        ∧ QualifyingDigest (.spcIndirectData sid) ∧ (∀ mac ∈ post, ¬ QualifyingDigest mac)
        ∧ (selectPair macses).2 = some sid) := by
  induction macses using List.reverseRecOn with
  | nil => left; simp [selectPair]
  | append_singleton init x ih =>
    rw [selectPair_concat]
    by_cases hq : QualifyingDigest x
    · right
      cases x with
      | catalogNameValue nv => exact absurd hq (by simp [QualifyingDigest])
      | spcIndirectData sid =>
        exact ⟨init, sid, [], rfl, hq, by simp, selectStep_digest_hit _ sid hq⟩
    · rw [selectStep_digest_miss _ x hq]
      rcases ih with ⟨hnone, hall⟩ | ⟨pre, sid, post, hsplit, hqual, hpost, hsel⟩
      · left
        refine ⟨hnone, ?_⟩
        intro mac hmac
        rcases List.mem_append.mp hmac with hm | hm
        · exact hall mac hm
        · rw [List.mem_singleton.mp hm]
          exact hq
      · right
        refine ⟨pre, sid, post ++ [x], by simp [hsplit], hqual, ?_, hsel⟩
        intro mac hmac
        rcases List.mem_append.mp hmac with hm | hm
        · exact hpost mac hm
        · rw [List.mem_singleton.mp hm]
          exact hq

theorem selectPair_name_isSome (macses : List memberAttributeContent) :
    (selectPair macses).1.isSome ↔ ∃ mac ∈ macses, QualifyingName mac := by
  rcases selectPair_name macses with ⟨hnone, hall⟩ | ⟨pre, nv, post, hsplit, hname, _, hsel⟩
  · rw [hnone]
    constructor
    · intro h; cases h
    · rintro ⟨mac, hmem, hq⟩
      exact absurd hq (hall mac hmem)
  · rw [hsel]
    constructor
    · intro _
      exact ⟨.catalogNameValue nv, by simp [hsplit], hname⟩
    · intro _; rfl

theorem selectPair_digest_isSome (macses : List memberAttributeContent) :
    (selectPair macses).2.isSome ↔ ∃ mac ∈ macses, QualifyingDigest mac := by
  rcases selectPair_digest macses with ⟨hnone, hall⟩ | ⟨pre, sid, post, hsplit, hqual, _, hsel⟩
  · rw [hnone]
    constructor
    · intro h; cases h
    · rintro ⟨mac, hmem, hq⟩
      exact absurd hq (hall mac hmem)
  · rw [hsel]
    constructor
    · intro _
      exact ⟨.spcIndirectData sid, by simp [hsplit], hqual⟩
    · intro _; rfl

/-! ## Rendering and the loop body -/

theorem renderPair_some (L : Lib) (cnv : catalogNameValue) (sid : spcIndirectData) :
    renderPair L (some cnv, some sid) =
      match L.utf16DecoderBytes cnv.Value with
      | .error err => .error (.error err)
      | .ok name =>
        .ok (some (printfLine (EncodeToString sid.MessageDigest.Digest) binaryMarker name)) := by
  rfl

theorem renderPair_skip (L : Lib) (st : Option catalogNameValue × Option spcIndirectData)
    (h : st.1 = none ∨ st.2 = none) : renderPair L st = .ok none := by
  obtain ⟨a, b⟩ := st
  cases a <;> cases b <;> simp_all [renderPair]

theorem renderPair_ok_isSome {L : Lib} {st : Option catalogNameValue × Option spcIndirectData}
    {r : Option String} (h : renderPair L st = .ok r) :
    r.isSome ↔ (st.1.isSome ∧ st.2.isSome) := by
  obtain ⟨a, b⟩ := st
  cases a with
  | none =>
    rw [renderPair_skip L _ (Or.inl rfl)] at h
    cases h
    simp
  | some cnv =>
    cases b with
    | none =>
      rw [renderPair_skip L _ (Or.inr rfl)] at h
      cases h
      simp
    | some sid =>
      rw [renderPair_some] at h
      cases hd : L.utf16DecoderBytes cnv.Value with
      | error err => rw [hd] at h; cases h
      | ok name =>
        rw [hd] at h
        cases h
        simp

theorem memberBody_of_contents {L : Lib} {m : catalogListMember}
    {macses : List memberAttributeContent} (h : collectContents L m.Attributes [] = .ok macses) :
    memberBody L m = renderPair L (selectPair macses) := by
  simp [memberBody, h]

theorem contents_of_memberBody_ok {L : Lib} {m : catalogListMember} {r : Option String}
    (h : memberBody L m = .ok r) :
    ∃ macses, collectContents L m.Attributes [] = .ok macses
      ∧ renderPair L (selectPair macses) = .ok r := by
  cases hc : collectContents L m.Attributes [] with
  | error p => simp [memberBody, hc] at h
  | ok macses => exact ⟨macses, rfl, by rw [← memberBody_of_contents hc]; exact h⟩

theorem filterMap_eq_flatMap_toList {α β : Type} (f : α → Option β) (l : List α) :
    l.filterMap f = l.flatMap fun a => (f a).toList := by
  induction l with
  | nil => rfl
  | cons a rest ih =>
    cases hf : f a <;> simp [List.filterMap_cons, hf, ih]

/-! ## Hexadecimal text -/

theorem hextable_getD (n : Nat) (h : n < 16) : hextable.getD n '0' = lowerHexDigit n := by
  interval_cases n <;> decide

theorem EncodeToString_eq_lowerHex (d : List Byte) : EncodeToString d = lowerHex d := by
  unfold EncodeToString lowerHex
  congr 1
  induction d with
  | nil => rfl
  | cons b rest ih =>
    have h1 : b.val >>> 4 = b.val / 16 := by
      rw [Nat.shiftRight_eq_div_pow]
    have h2 : b.val &&& 0x0f = b.val % 16 := Nat.and_pow_two_sub_one_eq_mod b.val 4
    have h3 : b.val / 16 < 16 := by omega
    have h4 : b.val % 16 < 16 := Nat.mod_lt _ (by decide)
    simp only [List.flatMap_cons, ih, h1, h2, hextable_getD _ h3, hextable_getD _ h4]

theorem printfLine_marker (hash name : String) :
    printfLine hash binaryMarker name = hash ++ " " ++ "*" ++ name ++ "\n" := rfl

/-! ## Claims on the resolution of members -/

set_option maxRecDepth 100000

/-- C1: on a decoded trust list whose run does not fail, the output is made of
the lines of the members, each member giving at most one, and a member gives a
line exactly when its flattened contents hold a NameValue named "Filename" and
an IndirectDigestData for cabinet data with a SHA-1 or SHA-256 digest. -/
theorem member_line_iff (L : Lib) (bytes : List Byte) (ctl : certTrustList)
    (hctl : unwrap L bytes = .ok ctl) (hrun : (main L (.ok bytes)).panic = none) :
    (main L (.ok bytes)).stdout = ctl.Members.flatMap (fun m => (memberLine L m).toList)
    ∧ ∀ m ∈ ctl.Members, (memberLine L m).toList.length ≤ 1
        ∧ ∃ macses, collectContents L m.Attributes [] = .ok macses
          ∧ ((memberLine L m).isSome ↔
              ((∃ mac ∈ macses, QualifyingName mac) ∧ (∃ mac ∈ macses, QualifyingDigest mac))) := by
  rw [main_of_unwrap hctl] at hrun ⊢
  rcases memberLoop_cases L ctl.Members [] with ⟨hall, hloop⟩ | ⟨pre, x, post, p, _, _, _, hloop⟩
  · refine ⟨by rw [hloop, filterMap_eq_flatMap_toList]; simp, ?_⟩
    intro m hm
    obtain ⟨r, hr⟩ := hall m hm
    obtain ⟨macses, hc, hrender⟩ := contents_of_memberBody_ok hr
    refine ⟨by cases h : memberLine L m <;> simp, macses, hc, ?_⟩
    rw [memberLine_of_ok hr, renderPair_ok_isSome hrender, selectPair_name_isSome,
      selectPair_digest_isSome]
  · rw [hloop] at hrun
    cases hrun

theorem member_line_iff_witness :
    unwrap exampleLib (exInput [exDriver, exNoDigest, exTwoNames])
        = .ok (exTrustList [exDriver, exNoDigest, exTwoNames])
    ∧ (main exampleLib (.ok (exInput [exDriver, exNoDigest, exTwoNames]))).panic = none
    ∧ (main exampleLib (.ok (exInput [exDriver, exNoDigest, exTwoNames]))).stdout
        = (exTrustList [exDriver, exNoDigest, exTwoNames]).Members.flatMap
            (fun m => (memberLine exampleLib m).toList)
    ∧ memberLine exampleLib exNoDigest = none
    ∧ memberLine exampleLib exDriver
        = some "000102030405060708090a0b0c0d0e0f101112131415161718191a1b1c1d1e1f *driver.sys\n" :=
  ⟨by rfl, by rfl,
    (member_line_iff exampleLib (exInput [exDriver, exNoDigest, exTwoNames])
      (exTrustList [exDriver, exNoDigest, exTwoNames]) (by rfl) (by rfl)).1,
    by rfl, by rfl⟩

/-- C2: the filename printed for a member is the decoding of the value bytes of
the last NameValue named "Filename" in its flattened contents. -/
theorem filename_last_wins (L : Lib) (m : catalogListMember)
    (macses : List memberAttributeContent) (line : String)
    (hc : collectContents L m.Attributes [] = .ok macses)
    (hb : memberBody L m = .ok (some line)) :
    ∃ pre nv post name, macses = pre ++ .catalogNameValue nv :: post
      ∧ nv.Name = "Filename"
      ∧ (∀ mac ∈ post, ¬ QualifyingName mac)
      ∧ L.utf16DecoderBytes nv.Value = .ok name
      ∧ ∃ hash, line = hash ++ " " ++ "*" ++ name ++ "\n" := by
  rw [memberBody_of_contents hc] at hb
  have hsome := (renderPair_ok_isSome hb).mp rfl
  rcases selectPair_name macses with ⟨hnone, _⟩ | ⟨pre, nv, post, hsplit, hname, hpost, hsel⟩
  · rw [hnone] at hsome
    exact absurd hsome.1 (by simp)
  · obtain ⟨sid, hsid⟩ := Option.isSome_iff_exists.mp hsome.2
    have hpair : selectPair macses = (some nv, some sid) := Prod.ext hsel hsid
    rw [hpair, renderPair_some] at hb
    cases hd : L.utf16DecoderBytes nv.Value with
    | error err => rw [hd] at hb; cases hb
    | ok name =>
      rw [hd] at hb
      refine ⟨pre, nv, post, name, hsplit, hname, hpost, hd,
        EncodeToString sid.MessageDigest.Digest, ?_⟩
      rw [← printfLine_marker]
      injection hb with hb
      injection hb with hb
      exact hb.symm

theorem filename_last_wins_witness :
    collectContents exampleLib exTwoNames.Attributes []
        = .ok [.catalogNameValue (exNameValue "Filename" "a.txt"),
            .catalogNameValue (exNameValue "Filename" "b.txt"),
            .catalogNameValue (exNameValue "OSAttr" "2:6.1"),
            .spcIndirectData exPeSha256, .spcIndirectData exCabSha1, .spcIndirectData exCabMd5]
    ∧ memberBody exampleLib exTwoNames
        = .ok (some "abababababababababababababababababababab *b.txt\n")
    ∧ ∃ pre nv post name,
        [.catalogNameValue (exNameValue "Filename" "a.txt"),
            .catalogNameValue (exNameValue "Filename" "b.txt"),
            .catalogNameValue (exNameValue "OSAttr" "2:6.1"),
            .spcIndirectData exPeSha256, .spcIndirectData exCabSha1, .spcIndirectData exCabMd5]
          = pre ++ memberAttributeContent.catalogNameValue nv :: post
      ∧ nv.Name = "Filename"
      ∧ (∀ mac ∈ post, ¬ QualifyingName mac)
      ∧ exampleLib.utf16DecoderBytes nv.Value = .ok name
      ∧ ∃ hash, "abababababababababababababababababababab *b.txt\n"
          = hash ++ " " ++ "*" ++ name ++ "\n" :=
  ⟨by rfl, by rfl, filename_last_wins exampleLib exTwoNames _ _ (by rfl) (by rfl)⟩

/-- C3: the digest printed for a member is that of the last IndirectDigestData
of its flattened contents that is for cabinet data with a SHA-1 or SHA-256
digest; contents after it that do not qualify leave it in place. -/
theorem digest_last_wins (L : Lib) (m : catalogListMember)
    (macses : List memberAttributeContent) (line : String)
    (hc : collectContents L m.Attributes [] = .ok macses)
    (hb : memberBody L m = .ok (some line)) :
    ∃ pre sid post, macses = pre ++ .spcIndirectData sid :: post
      ∧ sid.Data.Algorithm.String = "1.3.6.1.4.1.311.2.1.25"
      ∧ (sid.MessageDigest.DigestAlgorithm.Algorithm.String = "1.3.14.3.2.26"
          ∨ sid.MessageDigest.DigestAlgorithm.Algorithm.String = "2.16.840.1.101.3.4.2.1")
      ∧ (∀ mac ∈ post, ¬ QualifyingDigest mac)
      ∧ ∃ name, line = EncodeToString sid.MessageDigest.Digest ++ " " ++ "*" ++ name ++ "\n" := by
  rw [memberBody_of_contents hc] at hb
  have hsome := (renderPair_ok_isSome hb).mp rfl
  rcases selectPair_digest macses with ⟨hnone, _⟩ | ⟨pre, sid, post, hsplit, hqual, hpost, hsel⟩
  · rw [hnone] at hsome
    exact absurd hsome.2 (by simp)
  · obtain ⟨nv, hnv⟩ := Option.isSome_iff_exists.mp hsome.1
    have hpair : selectPair macses = (some nv, some sid) := Prod.ext hnv hsel
    rw [hpair, renderPair_some] at hb
    cases hd : L.utf16DecoderBytes nv.Value with
    | error err => rw [hd] at hb; cases hb
    | ok name =>
      rw [hd] at hb
      refine ⟨pre, sid, post, hsplit, hqual.1, hqual.2, hpost, name, ?_⟩
      rw [← printfLine_marker]
      injection hb with hb
      injection hb with hb
      exact hb.symm

theorem digest_last_wins_witness :
    collectContents exampleLib exTwoNames.Attributes []
        = .ok [.catalogNameValue (exNameValue "Filename" "a.txt"),
            .catalogNameValue (exNameValue "Filename" "b.txt"),
            .catalogNameValue (exNameValue "OSAttr" "2:6.1"),
            .spcIndirectData exPeSha256, .spcIndirectData exCabSha1, .spcIndirectData exCabMd5]
    ∧ memberBody exampleLib exTwoNames
        = .ok (some "abababababababababababababababababababab *b.txt\n")
    ∧ ∃ pre sid post,
        [.catalogNameValue (exNameValue "Filename" "a.txt"),
            .catalogNameValue (exNameValue "Filename" "b.txt"),
            .catalogNameValue (exNameValue "OSAttr" "2:6.1"),
            .spcIndirectData exPeSha256, .spcIndirectData exCabSha1, .spcIndirectData exCabMd5]
          = pre ++ memberAttributeContent.spcIndirectData sid :: post
      ∧ sid.Data.Algorithm.String = "1.3.6.1.4.1.311.2.1.25"
      ∧ (sid.MessageDigest.DigestAlgorithm.Algorithm.String = "1.3.14.3.2.26"
          ∨ sid.MessageDigest.DigestAlgorithm.Algorithm.String = "2.16.840.1.101.3.4.2.1")
      ∧ (∀ mac ∈ post, ¬ QualifyingDigest mac)
      ∧ ∃ name, "abababababababababababababababababababab *b.txt\n"
          = EncodeToString sid.MessageDigest.Digest ++ " " ++ "*" ++ name ++ "\n" :=
  ⟨by rfl, by rfl, digest_last_wins exampleLib exTwoNames _ _ (by rfl) (by rfl)⟩

/-- C4: on a decoded trust list whose run does not fail, the output is exactly
the lines of the members that give one, in the order of the members, so there
are at most as many lines as members. -/
theorem output_in_member_order (L : Lib) (bytes : List Byte) (ctl : certTrustList)
    (hctl : unwrap L bytes = .ok ctl) (hrun : (main L (.ok bytes)).panic = none) :
    (main L (.ok bytes)).stdout = ctl.Members.filterMap (memberLine L)
    ∧ (main L (.ok bytes)).stdout.length ≤ ctl.Members.length := by
  rw [main_of_unwrap hctl] at hrun ⊢
  rcases memberLoop_cases L ctl.Members [] with ⟨_, hloop⟩ | ⟨pre, x, post, p, _, _, _, hloop⟩
  · rw [hloop]
    exact ⟨by simp, by simpa using List.length_filterMap_le (memberLine L) ctl.Members⟩
  · rw [hloop] at hrun
    cases hrun

theorem output_in_member_order_witness :
    unwrap exampleLib (exInput [exDriver, exNoDigest, exTwoNames])
        = .ok (exTrustList [exDriver, exNoDigest, exTwoNames])
    ∧ (main exampleLib (.ok (exInput [exDriver, exNoDigest, exTwoNames]))).panic = none
    ∧ (main exampleLib (.ok (exInput [exDriver, exNoDigest, exTwoNames]))).stdout
        = [exDriver, exNoDigest, exTwoNames].filterMap (memberLine exampleLib)
    ∧ (main exampleLib (.ok (exInput [exDriver, exNoDigest, exTwoNames]))).stdout
        = ["000102030405060708090a0b0c0d0e0f101112131415161718191a1b1c1d1e1f *driver.sys\n",
           "abababababababababababababababababababab *b.txt\n"] :=
  ⟨by rfl, by rfl,
    (output_in_member_order exampleLib (exInput [exDriver, exNoDigest, exTwoNames])
      (exTrustList [exDriver, exNoDigest, exTwoNames]) (by rfl) (by rfl)).1,
    by rfl⟩

/-- C5: for a member whose selected pair is a name `cnv` and a digest `sid`, the
line written is the lowercase hexadecimal text of the digest bytes, a space,
the character `*`, the decoded name and a newline; with the digest bytes
`0x00..0x1F` and the name `driver.sys`, a trust list of that single member
gives exactly the line of the end-to-end example. -/
theorem line_format (L : Lib) (m : catalogListMember) (macses : List memberAttributeContent)
    (cnv : catalogNameValue) (sid : spcIndirectData) (name : String)
    (hc : collectContents L m.Attributes [] = .ok macses)
    (hs : selectPair macses = (some cnv, some sid))
    (hn : L.utf16DecoderBytes cnv.Value = .ok name) :
    memberBody L m
        = .ok (some (lowerHex sid.MessageDigest.Digest ++ " " ++ "*" ++ name ++ "\n"))
    ∧ (sid.MessageDigest.Digest = exDigest → name = "driver.sys" →
        memberLoop L [m] [] =
          ⟨["000102030405060708090a0b0c0d0e0f101112131415161718191a1b1c1d1e1f *driver.sys\n"],
            none⟩) := by
  have hbody : memberBody L m
      = .ok (some (lowerHex sid.MessageDigest.Digest ++ " " ++ "*" ++ name ++ "\n")) := by
    rw [memberBody_of_contents hc, hs, renderPair_some, hn]
    show Except.ok (some (printfLine (EncodeToString sid.MessageDigest.Digest) binaryMarker name))
      = _
    rw [printfLine_marker, EncodeToString_eq_lowerHex]
  refine ⟨hbody, ?_⟩
  intro hd hname
  rw [hd, hname] at hbody
  simp only [memberLoop, hbody]
  rfl

theorem line_format_witness :
    collectContents exampleLib exDriver.Attributes []
        = .ok [.catalogNameValue (exNameValue "Filename" "driver.sys"),
            .spcIndirectData exCabSha256]
    ∧ selectPair [.catalogNameValue (exNameValue "Filename" "driver.sys"),
            .spcIndirectData exCabSha256]
        = (some (exNameValue "Filename" "driver.sys"), some exCabSha256)
    ∧ exampleLib.utf16DecoderBytes (exNameValue "Filename" "driver.sys").Value = .ok "driver.sys"
    ∧ memberLoop exampleLib [exDriver] [] =
        ⟨["000102030405060708090a0b0c0d0e0f101112131415161718191a1b1c1d1e1f *driver.sys\n"],
          none⟩ :=
  ⟨by rfl, by rfl, by rfl,
    (line_format exampleLib exDriver
      [.catalogNameValue (exNameValue "Filename" "driver.sys"), .spcIndirectData exCabSha256]
      (exNameValue "Filename" "driver.sys") exCabSha256 "driver.sys"
      (by rfl) (by rfl) (by rfl)).2 (by rfl) (by rfl)⟩

/-! ## Claims on failure -/

/-- C6 as stated fails: on the example input whose first member resolves and
whose second member has an attribute of unknown type, the run stops with the
unknown-attribute panic after the line of the first member was written. -/
theorem output_before_failure :
    main exampleLib (.ok (exInput [exDriver, exUnknown])) =
      ⟨["000102030405060708090a0b0c0d0e0f101112131415161718191a1b1c1d1e1f *driver.sys\n"],
        some (.message "1.3.6.1.4.1.311.12.2.99 defaulted")⟩
    ∧ ¬ ((main exampleLib (.ok (exInput [exDriver, exUnknown]))).panic ≠ none →
        (main exampleLib (.ok (exInput [exDriver, exUnknown]))).stdout = []) := by
  have h : main exampleLib (.ok (exInput [exDriver, exUnknown])) =
      ⟨["000102030405060708090a0b0c0d0e0f101112131415161718191a1b1c1d1e1f *driver.sys\n"],
        some (.message "1.3.6.1.4.1.311.12.2.99 defaulted")⟩ := by rfl
  refine ⟨h, ?_⟩
  rw [h]
  simp

/-- C6, amended: a run that fails before the member loop (reading the input,
decoding or checking the envelope, the SignedData or the trust list) writes no
line; a run that fails in the body of a member has written exactly the lines
of the members before it, in member order, and nothing for that member or the
later ones. -/
theorem failure_output (L : Lib) (stdin : Except Error (List Byte)) (p : Panic)
    (hfail : (main L stdin).panic = some p) :
    (((∃ err, stdin = .error err ∧ p = .error err)
          ∨ ∃ bytes, stdin = .ok bytes ∧ unwrap L bytes = .error p)
        ∧ (main L stdin).stdout = [])
    ∨ (∃ bytes ctl pre m post, stdin = .ok bytes ∧ unwrap L bytes = .ok ctl
        ∧ ctl.Members = pre ++ m :: post
        ∧ (∀ x ∈ pre, ∃ r, memberBody L x = .ok r)
        ∧ memberBody L m = .error p
        ∧ (main L stdin).stdout = pre.filterMap (memberLine L)) := by
  cases stdin with
  | error err =>
    left
    have hp : p = .error err := by simpa [main] using hfail.symm
    subst hp
    exact ⟨Or.inl ⟨err, rfl, rfl⟩, rfl⟩
  | ok bytes =>
    cases hu : unwrap L bytes with
    | error q =>
      left
      have hp : p = q := by simpa [main, hu] using hfail.symm
      subst hp
      exact ⟨Or.inr ⟨bytes, rfl, hu⟩, by simp [main, hu]⟩
    | ok ctl =>
      right
      rw [main_of_unwrap hu] at hfail ⊢
      rcases memberLoop_cases L ctl.Members [] with ⟨_, hloop⟩ | ⟨pre, x, post, q, hsplit, hpre, hx, hloop⟩
      · rw [hloop] at hfail
        cases hfail
      · rw [hloop] at hfail ⊢
        injection hfail with hfail
        subst hfail
        exact ⟨bytes, ctl, pre, x, post, rfl, hu, hsplit, hpre, hx, by simp⟩

theorem failure_output_witness :
    (main exampleLib (.ok (exInput [exDriver, exUnknown]))).panic
        = some (.message "1.3.6.1.4.1.311.12.2.99 defaulted")
    ∧ (((∃ err, (Except.ok (exInput [exDriver, exUnknown]) : Except Error (List Byte))
              = .error err
            ∧ Panic.message "1.3.6.1.4.1.311.12.2.99 defaulted" = .error err)
          ∨ ∃ bytes, (Except.ok (exInput [exDriver, exUnknown]) : Except Error (List Byte))
              = .ok bytes
            ∧ unwrap exampleLib bytes = .error (.message "1.3.6.1.4.1.311.12.2.99 defaulted"))
        ∧ (main exampleLib (.ok (exInput [exDriver, exUnknown]))).stdout = []
      ∨ ∃ bytes ctl pre m post,
          (Except.ok (exInput [exDriver, exUnknown]) : Except Error (List Byte)) = .ok bytes
        ∧ unwrap exampleLib bytes = .ok ctl
        ∧ ctl.Members = pre ++ m :: post
        ∧ (∀ x ∈ pre, ∃ r, memberBody exampleLib x = .ok r)
        ∧ memberBody exampleLib m = .error (.message "1.3.6.1.4.1.311.12.2.99 defaulted")
        ∧ (main exampleLib (.ok (exInput [exDriver, exUnknown]))).stdout
            = pre.filterMap (memberLine exampleLib)) :=
  ⟨by rfl, failure_output exampleLib (.ok (exInput [exDriver, exUnknown]))
    (.message "1.3.6.1.4.1.311.12.2.99 defaulted") (by rfl)⟩

/-! ## Failure of the dispatcher and of the loop -/

theorem decodeEntries_error {α : Type} (unmarshal : List Byte → α → Except Error α)
    (wrap : α → memberAttributeContent) (entries : List RawValue) (cur : α)
    (macs : List memberAttributeContent) (p : Panic)
    (h : decodeEntries unmarshal wrap entries cur macs = .error p) : ∃ err, p = .error err := by
  induction entries generalizing cur macs with
  | nil => simp [decodeEntries] at h
  | cons c rest ih =>
    cases hu : unmarshal c.FullBytes cur with
    | error err =>
      simp only [decodeEntries, hu] at h
      injection h with h
      exact ⟨err, h.symm⟩
    | ok cur1 =>
      simp only [decodeEntries, hu] at h
      exact ih _ _ h

theorem decodeEntries_error_iff {α : Type} (unmarshal : List Byte → α → Except Error α)
    (wrap : α → memberAttributeContent) (entries : List RawValue) (cur : α)
    (macs : List memberAttributeContent) :
    (∃ p, decodeEntries unmarshal wrap entries cur macs = .error p) ↔
      ∃ pre c post cur1 err, entries = pre ++ c :: post
        ∧ targetAfter unmarshal pre cur = .ok cur1
        ∧ unmarshal c.FullBytes cur1 = .error err := by
  induction entries generalizing cur macs with
  | nil =>
    constructor
    · rintro ⟨p, hp⟩
      simp [decodeEntries] at hp
    · rintro ⟨pre, c, post, cur1, err, hsplit, _, _⟩
      simp at hsplit
  | cons c rest ih =>
    cases hu : unmarshal c.FullBytes cur with
    | error err =>
      constructor
      · intro _
        exact ⟨[], c, rest, cur, err, rfl, rfl, hu⟩
      · intro _
        exact ⟨.error err, by simp [decodeEntries, hu]⟩
    | ok cur1 =>
      have hstep : decodeEntries unmarshal wrap (c :: rest) cur macs
          = decodeEntries unmarshal wrap rest cur1 (macs ++ [wrap cur1]) := by
        simp [decodeEntries, hu]
      rw [hstep, ih]
      constructor
      · rintro ⟨pre, d, post, cur2, err, hsplit, htarget, hd⟩
        exact ⟨c :: pre, d, post, cur2, err, by simp [hsplit], by simp [targetAfter, hu, htarget], hd⟩
      · rintro ⟨pre, d, post, cur2, err, hsplit, htarget, hd⟩
        cases pre with
        | nil =>
          simp only [List.nil_append, List.cons.injEq] at hsplit
          obtain ⟨rfl, _⟩ := hsplit
          simp only [targetAfter] at htarget
          injection htarget with htarget
          subst htarget
          rw [hu] at hd
          cases hd
        | cons e pre1 =>
          simp only [List.cons_append, List.cons.injEq] at hsplit
          obtain ⟨rfl, hrest⟩ := hsplit
          simp only [targetAfter, hu] at htarget
          exact ⟨pre1, d, post, cur2, err, hrest, htarget, hd⟩

theorem MemberAttributeContents_unknown (L : Lib) (ma : memberAttribute)
    (h : UnknownAttributeType ma) :
    MemberAttributeContents L ma = .error (.message (ma.Oid.String ++ " defaulted")) := by
  obtain ⟨h1, h2, h3, h4⟩ := h
  simp [MemberAttributeContents, oidMSCatalogNameValue, oidMSCatalogMemberInfo,
    oidMSCatalogMemberInfo2, oidMSSpcIndirectData, h1, h2, h3, h4]

theorem MemberAttributeContents_message (L : Lib) (ma : memberAttribute) (s : String)
    (h : MemberAttributeContents L ma = .error (.message s)) : UnknownAttributeType ma := by
  by_cases h1 : ma.Oid.String = "1.3.6.1.4.1.311.12.2.1"
  · simp only [MemberAttributeContents, oidMSCatalogNameValue, h1, if_true] at h
    obtain ⟨err, herr⟩ := decodeEntries_error _ _ _ _ _ _ h
    cases herr
  by_cases h2 : ma.Oid.String = "1.3.6.1.4.1.311.12.2.2"
  · simp [MemberAttributeContents, oidMSCatalogNameValue, oidMSCatalogMemberInfo, h2] at h
  by_cases h3 : ma.Oid.String = "1.3.6.1.4.1.311.12.2.3"
  · simp [MemberAttributeContents, oidMSCatalogNameValue, oidMSCatalogMemberInfo,
      oidMSCatalogMemberInfo2, h3] at h
  by_cases h4 : ma.Oid.String = "1.3.6.1.4.1.311.2.1.4"
  · simp only [MemberAttributeContents, oidMSCatalogNameValue, oidMSCatalogMemberInfo,
      oidMSCatalogMemberInfo2, oidMSSpcIndirectData, h1, h2, h3, h4, if_true, if_false] at h
    obtain ⟨err, herr⟩ := decodeEntries_error _ _ _ _ _ _ h
    cases herr
  exact ⟨h1, h2, h3, h4⟩

/-- C7: `MemberAttributeContents` stops with the panic of its default case
exactly when the type identifier of the attribute is none of
1.3.6.1.4.1.311.12.2.1, 1.3.6.1.4.1.311.12.2.2, 1.3.6.1.4.1.311.12.2.3 and
1.3.6.1.4.1.311.2.1.4; for such an identifier it does so for any content
entries, also none, and gives no contents. -/
theorem unknown_attribute_iff (L : Lib) (ma : memberAttribute) :
    ((∃ s, MemberAttributeContents L ma = .error (.message s)) ↔
        (ma.Oid.String ≠ "1.3.6.1.4.1.311.12.2.1" ∧ ma.Oid.String ≠ "1.3.6.1.4.1.311.12.2.2"
          ∧ ma.Oid.String ≠ "1.3.6.1.4.1.311.12.2.3" ∧ ma.Oid.String ≠ "1.3.6.1.4.1.311.2.1.4"))
    ∧ ((ma.Oid.String ≠ "1.3.6.1.4.1.311.12.2.1" ∧ ma.Oid.String ≠ "1.3.6.1.4.1.311.12.2.2"
          ∧ ma.Oid.String ≠ "1.3.6.1.4.1.311.12.2.3" ∧ ma.Oid.String ≠ "1.3.6.1.4.1.311.2.1.4") →
        ∀ content : List RawValue,
          MemberAttributeContents L ⟨ma.Oid, content⟩
            = .error (.message (ma.Oid.String ++ " defaulted"))) := by
  refine ⟨⟨?_, ?_⟩, ?_⟩
  · rintro ⟨s, hs⟩
    exact MemberAttributeContents_message L ma s hs
  · intro h
    exact ⟨_, MemberAttributeContents_unknown L ma h⟩
  · intro h content
    exact MemberAttributeContents_unknown L ⟨ma.Oid, content⟩ h

theorem unknown_attribute_iff_witness :
    MemberAttributeContents exampleLib exUnknownAttribute
        = .error (.message "1.3.6.1.4.1.311.12.2.99 defaulted")
    ∧ MemberAttributeContents exampleLib ⟨exUnknownAttribute.Oid, []⟩
        = .error (.message "1.3.6.1.4.1.311.12.2.99 defaulted") :=
  ⟨by rfl, (unknown_attribute_iff exampleLib exUnknownAttribute).2 (by decide) []⟩

theorem collectContents_error_iff (L : Lib) (attrs : List memberAttribute)
    (macses : List memberAttributeContent) :
    (∃ p, collectContents L attrs macses = .error p) ↔
      ∃ a ∈ attrs, ∃ p, MemberAttributeContents L a = .error p := by
  induction attrs generalizing macses with
  | nil => simp [collectContents]
  | cons a rest ih =>
    cases ha : MemberAttributeContents L a with
    | error p =>
      constructor
      · intro _
        exact ⟨a, by simp, p, ha⟩
      · intro _
        exact ⟨p, by simp [collectContents, ha]⟩
    | ok macs =>
      have hstep : collectContents L (a :: rest) macses
          = collectContents L rest (macses ++ macs) := by
        simp [collectContents, ha]
      rw [hstep, ih]
      constructor
      · rintro ⟨b, hb, p, hp⟩
        exact ⟨b, List.mem_cons_of_mem _ hb, p, hp⟩
      · rintro ⟨b, hb, p, hp⟩
        rcases List.mem_cons.mp hb with rfl | hb
        · rw [ha] at hp
          cases hp
        · exact ⟨b, hb, p, hp⟩

theorem memberBody_error_iff (L : Lib) (m : catalogListMember) :
    (∃ p, memberBody L m = .error p) ↔
      ((∃ a ∈ m.Attributes, ∃ p, MemberAttributeContents L a = .error p)
        ∨ (∃ macses cnv sid err, collectContents L m.Attributes [] = .ok macses
            ∧ selectPair macses = (some cnv, some sid)
            ∧ L.utf16DecoderBytes cnv.Value = .error err)) := by
  rw [← collectContents_error_iff L m.Attributes []]
  cases hc : collectContents L m.Attributes [] with
  | error p =>
    constructor
    · intro _
      exact Or.inl ⟨p, rfl⟩
    · intro _
      exact ⟨p, by simp [memberBody, hc]⟩
  | ok macses =>
    rw [memberBody_of_contents hc]
    constructor
    · rintro ⟨p, hp⟩
      right
      rcases hsel : selectPair macses with ⟨a, b⟩
      rw [hsel] at hp
      cases a with
      | none => rw [renderPair_skip L _ (Or.inl rfl)] at hp; cases hp
      | some cnv =>
        cases b with
        | none => rw [renderPair_skip L _ (Or.inr rfl)] at hp; cases hp
        | some sid =>
          rw [renderPair_some] at hp
          cases hd : L.utf16DecoderBytes cnv.Value with
          | error err => exact ⟨macses, cnv, sid, err, rfl, hsel, hd⟩
          | ok name => rw [hd] at hp; cases hp
    · rintro (⟨p, hp⟩ | ⟨macses1, cnv, sid, err, hc1, hsel, hd⟩)
      · cases hp
      · injection hc1 with hc1
        subst hc1
        exact ⟨.error err, by rw [hsel, renderPair_some, hd]⟩

theorem memberLoop_panic_iff (L : Lib) (ms : List catalogListMember) (out : List String) :
    (memberLoop L ms out).panic ≠ none ↔ ∃ m ∈ ms, ∃ p, memberBody L m = .error p := by
  rcases memberLoop_cases L ms out with ⟨hall, hloop⟩ | ⟨pre, x, post, p, hsplit, _, hx, hloop⟩
  · rw [hloop]
    constructor
    · intro h
      exact absurd rfl h
    · rintro ⟨m, hm, p, hp⟩
      obtain ⟨r, hr⟩ := hall m hm
      rw [hr] at hp
      cases hp
  · rw [hloop]
    constructor
    · intro _
      exact ⟨x, by simp [hsplit], p, hx⟩
    · intro _
      simp

/-- C8: the loop over the members of a decoded trust list fails exactly when
some attribute of some member fails in `MemberAttributeContents`, or the
selected name of some member with both a name and a digest fails text
decoding.  A member without a qualifying name or without a qualifying digest
is skipped without failure.  An attribute fails exactly on an unknown type
identifier or on an entry that does not unmarshal under the selected type. -/
theorem loop_fails_iff (L : Lib) (ctl : certTrustList) :
    ((memberLoop L ctl.Members []).panic ≠ none ↔
        ∃ m ∈ ctl.Members,
          (∃ a ∈ m.Attributes, ∃ p, MemberAttributeContents L a = .error p)
          ∨ (∃ macses cnv sid err, collectContents L m.Attributes [] = .ok macses
              ∧ selectPair macses = (some cnv, some sid)
              ∧ L.utf16DecoderBytes cnv.Value = .error err))
    ∧ (∀ (m : catalogListMember) (macses : List memberAttributeContent),
        collectContents L m.Attributes [] = .ok macses →
        ((∀ mac ∈ macses, ¬ QualifyingName mac) ∨ (∀ mac ∈ macses, ¬ QualifyingDigest mac)) →
        memberBody L m = .ok none)
    ∧ (∀ a : memberAttribute, (∃ p, MemberAttributeContents L a = .error p) ↔
        (UnknownAttributeType a
          ∨ (a.Oid.String = "1.3.6.1.4.1.311.12.2.1"
              ∧ ∃ pre c post cur err, a.Content = pre ++ c :: post
                ∧ targetAfter L.unmarshalCatalogNameValue pre catalogNameValue.zero = .ok cur
                ∧ L.unmarshalCatalogNameValue c.FullBytes cur = .error err)
          ∨ (a.Oid.String = "1.3.6.1.4.1.311.2.1.4"
              ∧ ∃ pre c post cur err, a.Content = pre ++ c :: post
                ∧ targetAfter L.unmarshalSpcIndirectData pre spcIndirectData.zero = .ok cur
                ∧ L.unmarshalSpcIndirectData c.FullBytes cur = .error err))) := by
  refine ⟨?_, ?_, ?_⟩
  · rw [memberLoop_panic_iff]
    constructor
    · rintro ⟨m, hm, hp⟩
      exact ⟨m, hm, (memberBody_error_iff L m).mp hp⟩
    · rintro ⟨m, hm, h⟩
      exact ⟨m, hm, (memberBody_error_iff L m).mpr h⟩
  · intro m macses hc hmiss
    rw [memberBody_of_contents hc]
    apply renderPair_skip
    rcases hmiss with hn | hd
    · left
      rcases selectPair_name macses with ⟨hnone, _⟩ | ⟨pre, nv, post, hsplit, hname, _, _⟩
      · exact hnone
      · exact absurd hname (hn (.catalogNameValue nv) (by simp [hsplit]))
    · right
      rcases selectPair_digest macses with ⟨hnone, _⟩ | ⟨pre, sid, post, hsplit, hqual, _, _⟩
      · exact hnone
      · exact absurd hqual (hd (.spcIndirectData sid) (by simp [hsplit]))
  · intro a
    by_cases h1 : a.Oid.String = "1.3.6.1.4.1.311.12.2.1"
    · have hrun : MemberAttributeContents L a
          = decodeEntries L.unmarshalCatalogNameValue .catalogNameValue a.Content
              catalogNameValue.zero [] := by
        simp [MemberAttributeContents, oidMSCatalogNameValue, h1]
      rw [hrun, decodeEntries_error_iff]
      constructor
      · intro h
        exact Or.inr (Or.inl ⟨h1, h⟩)
      · rintro (hu | ⟨_, h⟩ | ⟨h4, _⟩)
        · exact absurd h1 hu.1
        · exact h
        · rw [h1] at h4
          exact absurd h4 (by decide)
    by_cases h2 : a.Oid.String = "1.3.6.1.4.1.311.12.2.2"
    · have hrun : MemberAttributeContents L a = .ok [] := by
        simp [MemberAttributeContents, oidMSCatalogNameValue, oidMSCatalogMemberInfo, h2]
      rw [hrun]
      constructor
      · rintro ⟨p, hp⟩
        cases hp
      · rintro (hu | ⟨h, _⟩ | ⟨h4, _⟩)
        · exact absurd h2 hu.2.1
        · exact absurd h h1
        · rw [h2] at h4
          exact absurd h4 (by decide)
    by_cases h3 : a.Oid.String = "1.3.6.1.4.1.311.12.2.3"
    · have hrun : MemberAttributeContents L a = .ok [] := by
        simp [MemberAttributeContents, oidMSCatalogNameValue, oidMSCatalogMemberInfo,
          oidMSCatalogMemberInfo2, h3]
      rw [hrun]
      constructor
      · rintro ⟨p, hp⟩
        cases hp
      · rintro (hu | ⟨h, _⟩ | ⟨h4, _⟩)
        · exact absurd h3 hu.2.2.1
        · exact absurd h h1
        · rw [h3] at h4
          exact absurd h4 (by decide)
    by_cases h4 : a.Oid.String = "1.3.6.1.4.1.311.2.1.4"
    · have hrun : MemberAttributeContents L a
          = decodeEntries L.unmarshalSpcIndirectData .spcIndirectData a.Content
              spcIndirectData.zero [] := by
        simp [MemberAttributeContents, oidMSCatalogNameValue, oidMSCatalogMemberInfo,
          oidMSCatalogMemberInfo2, oidMSSpcIndirectData, h4]
      rw [hrun, decodeEntries_error_iff]
      constructor
      · intro h
        exact Or.inr (Or.inr ⟨h4, h⟩)
      · rintro (hu | ⟨h, _⟩ | ⟨_, h⟩)
        · exact absurd h4 hu.2.2.2
        · exact absurd h h1
        · exact h
    · have hu : UnknownAttributeType a := ⟨h1, h2, h3, h4⟩
      constructor
      · intro _
        exact Or.inl hu
      · intro _
        exact ⟨_, MemberAttributeContents_unknown L a hu⟩

theorem loop_fails_iff_witness :
    (memberLoop exampleLib (exTrustList [exNoDigest, exUnknown]).Members []).panic
        = some (.message "1.3.6.1.4.1.311.12.2.99 defaulted")
    ∧ (∃ m ∈ (exTrustList [exNoDigest, exUnknown]).Members,
          (∃ a ∈ m.Attributes, ∃ p, MemberAttributeContents exampleLib a = .error p)
          ∨ (∃ macses cnv sid err, collectContents exampleLib m.Attributes [] = .ok macses
              ∧ selectPair macses = (some cnv, some sid)
              ∧ exampleLib.utf16DecoderBytes cnv.Value = .error err))
    ∧ memberBody exampleLib exNoDigest = .ok none :=
  ⟨by rfl,
    (loop_fails_iff exampleLib (exTrustList [exNoDigest, exUnknown])).1.mp (by decide),
    (loop_fails_iff exampleLib (exTrustList [exNoDigest, exUnknown])).2.1 exNoDigest
      [.catalogNameValue (exNameValue "Filename" "a.txt")] (by rfl)
      (Or.inr (by simp [QualifyingDigest]))⟩

/-! ## Claims on the envelope -/

theorem unwrap_outer_mismatch {L : Lib} {bytes : List Byte} {ci : contentInfo}
    (hci : L.unmarshalContentInfo bytes contentInfo.zero = .ok ci)
    (hne : ci.ContentType.String ≠ "1.2.840.113549.1.7.2") :
    unwrap L bytes = .error (.message (ci.ContentType.String ++ " != oidPKCS7SignedData")) := by
  simp [unwrap, hci, oidPKCS7SignedData, hne]

theorem unwrap_inner {L : Lib} {bytes : List Byte} {ci : contentInfo} {sd : signedData}
    (hci : L.unmarshalContentInfo bytes contentInfo.zero = .ok ci)
    (hty : ci.ContentType.String = "1.2.840.113549.1.7.2")
    (hsd : L.unmarshalSignedData ci.Content.Bytes signedData.zero = .ok sd) :
    unwrap L bytes =
      if sd.ContentInfo.ContentType.String ≠ "1.3.6.1.4.1.311.10.1" then
        .error (.message (sd.ContentInfo.ContentType.String ++ " != oidMSCertTrustList"))
      else
        match L.unmarshalCertTrustList sd.ContentInfo.Content.Bytes certTrustList.zero with
        | .error err => .error (.error err)
        | .ok ctl => .ok ctl := by
  simp [unwrap, hci, oidPKCS7SignedData, hty, hsd, oidMSCertTrustList]

theorem unwrap_ok {L : Lib} {bytes : List Byte} {ctl : certTrustList}
    (h : unwrap L bytes = .ok ctl) :
    ∃ ci sd, L.unmarshalContentInfo bytes contentInfo.zero = .ok ci
      ∧ ci.ContentType.String = "1.2.840.113549.1.7.2"
      ∧ L.unmarshalSignedData ci.Content.Bytes signedData.zero = .ok sd
      ∧ sd.ContentInfo.ContentType.String = "1.3.6.1.4.1.311.10.1"
      ∧ L.unmarshalCertTrustList sd.ContentInfo.Content.Bytes certTrustList.zero = .ok ctl := by
  cases hci : L.unmarshalContentInfo bytes contentInfo.zero with
  | error err => simp [unwrap, hci] at h
  | ok ci =>
    by_cases hty : ci.ContentType.String = "1.2.840.113549.1.7.2"
    · cases hsd : L.unmarshalSignedData ci.Content.Bytes signedData.zero with
      | error err => simp [unwrap, hci, oidPKCS7SignedData, hty, hsd] at h
      | ok sd =>
        rw [unwrap_inner hci hty hsd] at h
        by_cases hin : sd.ContentInfo.ContentType.String = "1.3.6.1.4.1.311.10.1"
        · cases hctl : L.unmarshalCertTrustList sd.ContentInfo.Content.Bytes certTrustList.zero with
          | error err => simp [hin, hctl] at h
          | ok ctl1 =>
            simp only [hin, ne_eq, not_true_eq_false, if_false, hctl] at h
            injection h with h
            subst h
            exact ⟨ci, sd, rfl, hty, hsd, hin, hctl⟩
        · simp [hin] at h
    · rw [unwrap_outer_mismatch hci hty] at h
      cases h

/-- C9: when the outer ContentInfo decodes with a type identifier other than
1.2.840.113549.1.7.2, the run stops with the mismatch panic and no line is
written, whatever the content is and whatever the other decoders would do. -/
theorem outer_type_mismatch (L : Lib) (bytes : List Byte) (ci : contentInfo)
    (hci : L.unmarshalContentInfo bytes contentInfo.zero = .ok ci)
    (hne : ci.ContentType.String ≠ "1.2.840.113549.1.7.2") :
    main L (.ok bytes)
        = ⟨[], some (.message (ci.ContentType.String ++ " != oidPKCS7SignedData"))⟩
    ∧ ∀ L2 : Lib, L2.unmarshalContentInfo = L.unmarshalContentInfo →
        main L2 (.ok bytes) = main L (.ok bytes) := by
  have hmain : ∀ K : Lib, K.unmarshalContentInfo bytes contentInfo.zero = .ok ci →
      main K (.ok bytes)
        = ⟨[], some (.message (ci.ContentType.String ++ " != oidPKCS7SignedData"))⟩ := by
    intro K hK
    simp [main, unwrap_outer_mismatch hK hne]
  refine ⟨hmain L hci, ?_⟩
  intro L2 h2
  rw [hmain L hci, hmain L2 (by rw [h2]; exact hci)]

theorem outer_type_mismatch_witness :
    exampleLib.unmarshalContentInfo (encContentInfo exOuterData) contentInfo.zero
        = .ok exOuterData
    ∧ exOuterData.ContentType.String ≠ "1.2.840.113549.1.7.2"
    ∧ main exampleLib (.ok (encContentInfo exOuterData))
        = ⟨[], some (.message "1.2.840.113549.1.7.1 != oidPKCS7SignedData")⟩ :=
  ⟨by rfl, by decide,
    (outer_type_mismatch exampleLib (encContentInfo exOuterData) exOuterData (by rfl)
      (by decide)).1⟩

/-- C10: when the outer layer is accepted and the SignedData decodes, an inner
type identifier other than 1.3.6.1.4.1.311.10.1 stops the run with the mismatch
panic and no line, whatever the trust-list decoder would do; and whenever a
trust list is returned, the outer identifier is 1.2.840.113549.1.7.2 and the
inner one is 1.3.6.1.4.1.311.10.1. -/
theorem inner_type_mismatch (L : Lib) (bytes : List Byte) (ci : contentInfo) (sd : signedData)
    (hci : L.unmarshalContentInfo bytes contentInfo.zero = .ok ci)
    (hty : ci.ContentType.String = "1.2.840.113549.1.7.2")
    (hsd : L.unmarshalSignedData ci.Content.Bytes signedData.zero = .ok sd)
    (hne : sd.ContentInfo.ContentType.String ≠ "1.3.6.1.4.1.311.10.1") :
    main L (.ok bytes)
        = ⟨[], some (.message (sd.ContentInfo.ContentType.String ++ " != oidMSCertTrustList"))⟩
    ∧ (∀ L2 : Lib, L2.unmarshalContentInfo = L.unmarshalContentInfo →
        L2.unmarshalSignedData = L.unmarshalSignedData →
        main L2 (.ok bytes) = main L (.ok bytes))
    ∧ (∀ (b : List Byte) (ctl : certTrustList), unwrap L b = .ok ctl →
        ∃ ci2 sd2, L.unmarshalContentInfo b contentInfo.zero = .ok ci2
          ∧ ci2.ContentType.String = "1.2.840.113549.1.7.2"
          ∧ L.unmarshalSignedData ci2.Content.Bytes signedData.zero = .ok sd2
          ∧ sd2.ContentInfo.ContentType.String = "1.3.6.1.4.1.311.10.1"
          ∧ L.unmarshalCertTrustList sd2.ContentInfo.Content.Bytes certTrustList.zero
              = .ok ctl) := by
  have hmain : ∀ K : Lib, K.unmarshalContentInfo bytes contentInfo.zero = .ok ci →
      K.unmarshalSignedData ci.Content.Bytes signedData.zero = .ok sd →
      main K (.ok bytes)
        = ⟨[], some (.message (sd.ContentInfo.ContentType.String ++ " != oidMSCertTrustList"))⟩ := by
    intro K hK1 hK2
    simp [main, unwrap_inner hK1 hty hK2, hne]
  refine ⟨hmain L hci hsd, ?_, ?_⟩
  · intro L2 h1 h2
    rw [hmain L hci hsd, hmain L2 (by rw [h1]; exact hci) (by rw [h2]; exact hsd)]
  · intro b ctl h
    exact unwrap_ok h

theorem inner_type_mismatch_witness :
    exampleLib.unmarshalContentInfo (encContentInfo (exOuter (exSignedData exInnerData)))
        contentInfo.zero = .ok (exOuter (exSignedData exInnerData))
    ∧ (exOuter (exSignedData exInnerData)).ContentType.String = "1.2.840.113549.1.7.2"
    ∧ exampleLib.unmarshalSignedData (exOuter (exSignedData exInnerData)).Content.Bytes
        signedData.zero = .ok (exSignedData exInnerData)
    ∧ (exSignedData exInnerData).ContentInfo.ContentType.String ≠ "1.3.6.1.4.1.311.10.1"
    ∧ main exampleLib (.ok (encContentInfo (exOuter (exSignedData exInnerData))))
        = ⟨[], some (.message "1.2.840.113549.1.7.1 != oidMSCertTrustList")⟩
    ∧ unwrap exampleLib (exInput [exDriver]) = .ok (exTrustList [exDriver]) :=
  ⟨by rfl, by decide, by rfl, by decide,
    (inner_type_mismatch exampleLib (encContentInfo (exOuter (exSignedData exInnerData)))
      (exOuter (exSignedData exInnerData)) (exSignedData exInnerData)
      (by rfl) (by decide) (by rfl) (by decide)).1,
    by rfl⟩

/-! ## Claims on ignored attributes and contents -/

theorem collectContents_append (L : Lib) (pre rest : List memberAttribute)
    (macses : List memberAttributeContent) :
    collectContents L (pre ++ rest) macses =
      match collectContents L pre macses with
      | .error p => .error p
      | .ok acc => collectContents L rest acc := by
  induction pre generalizing macses with
  | nil => rfl
  | cons a pre1 ih =>
    cases ha : MemberAttributeContents L a with
    | error p => simp [collectContents, ha]
    | ok macs => simp [collectContents, ha, ih]

theorem collectContents_skip (L : Lib) (a : memberAttribute) (pre post : List memberAttribute)
    (macses : List memberAttributeContent) (ha : MemberAttributeContents L a = .ok []) :
    collectContents L (pre ++ a :: post) macses = collectContents L (pre ++ post) macses := by
  rw [collectContents_append, collectContents_append]
  cases collectContents L pre macses with
  | error p => rfl
  | ok acc => simp [collectContents, ha]

/-- C11: for an attribute of type member info (1.3.6.1.4.1.311.12.2.2) or
member info v2 (1.3.6.1.4.1.311.12.2.3), `MemberAttributeContents` gives the
empty sequence without failing, whatever its content entries are, and a member
gives the same result with or without such an attribute at any position. -/
theorem member_info_ignored (L : Lib) (ma : memberAttribute)
    (h : ma.Oid.String = "1.3.6.1.4.1.311.12.2.2" ∨ ma.Oid.String = "1.3.6.1.4.1.311.12.2.3") :
    MemberAttributeContents L ma = .ok []
    ∧ ∀ (data : RawValue) (pre post : List memberAttribute),
        memberBody L ⟨data, pre ++ ma :: post⟩ = memberBody L ⟨data, pre ++ post⟩ := by
  have hma : MemberAttributeContents L ma = .ok [] := by
    rcases h with h | h
    · simp [MemberAttributeContents, oidMSCatalogNameValue, oidMSCatalogMemberInfo, h]
    · simp [MemberAttributeContents, oidMSCatalogNameValue, oidMSCatalogMemberInfo,
        oidMSCatalogMemberInfo2, h]
  refine ⟨hma, ?_⟩
  intro data pre post
  simp only [memberBody, collectContents_skip L ma pre post [] hma]

theorem member_info_ignored_witness :
    (exInfoAttribute.Oid.String = "1.3.6.1.4.1.311.12.2.2"
      ∨ exInfoAttribute.Oid.String = "1.3.6.1.4.1.311.12.2.3")
    ∧ MemberAttributeContents exampleLib exInfoAttribute = .ok []
    ∧ exampleLib.unmarshalCatalogNameValue (rawElement 0x30 (tlv 0x02 [0x07])).FullBytes
        catalogNameValue.zero = .error "asn1: structure error"
    ∧ memberBody exampleLib exDriver
        = memberBody exampleLib
            (exMember [exNameAttribute [exNameValue "Filename" "driver.sys"],
              exDigestAttribute [exCabSha256]]) :=
  ⟨by decide, (member_info_ignored exampleLib exInfoAttribute (by decide)).1, by rfl,
    (member_info_ignored exampleLib exInfoAttribute (by decide)).2
      (rawElement 0x04 [0xDE, 0xAD, 0xBE, 0xEF])
      [exNameAttribute [exNameValue "Filename" "driver.sys"]]
      [exDigestAttribute [exCabSha256]]⟩

/-- C15: a member whose flattened contents hold a NameValue named "Filename"
while every IndirectDigestData among them has a digest algorithm other than
SHA-1 (1.3.14.3.2.26) and SHA-256 (2.16.840.1.101.3.4.2.1) gives no line and
no failure. -/
theorem unrecognized_hash_skipped (L : Lib) (m : catalogListMember)
    (macses : List memberAttributeContent)
    (hc : collectContents L m.Attributes [] = .ok macses)
    (_hname : ∃ mac ∈ macses, QualifyingName mac)
    (hdig : ∀ sid, memberAttributeContent.spcIndirectData sid ∈ macses →
      sid.MessageDigest.DigestAlgorithm.Algorithm.String ≠ "1.3.14.3.2.26"
        ∧ sid.MessageDigest.DigestAlgorithm.Algorithm.String ≠ "2.16.840.1.101.3.4.2.1") :
    memberBody L m = .ok none ∧ memberLine L m = none
    ∧ ∀ out, memberLoop L [m] out = ⟨out, none⟩ := by
  have hbody : memberBody L m = .ok none := by
    rw [memberBody_of_contents hc]
    apply renderPair_skip
    right
    rcases selectPair_digest macses with ⟨hnone, _⟩ | ⟨pre, sid, post, hsplit, hqual, _, _⟩
    · exact hnone
    · exfalso
      have hmem : memberAttributeContent.spcIndirectData sid ∈ macses := by simp [hsplit]
      obtain ⟨h1, h256⟩ := hdig sid hmem
      rcases hqual.2 with h | h
      · exact h1 h
      · exact h256 h
  refine ⟨hbody, memberLine_of_ok hbody, ?_⟩
  intro out
  simp [memberLoop, hbody]

theorem unrecognized_hash_skipped_witness :
    collectContents exampleLib2 exOnlyMd5.Attributes []
        = .ok [.catalogNameValue (exNameValue "Filename" "a.txt"), .spcIndirectData exCabMd5]
    ∧ (∃ mac ∈ [memberAttributeContent.catalogNameValue (exNameValue "Filename" "a.txt"),
          memberAttributeContent.spcIndirectData exCabMd5], QualifyingName mac)
    ∧ memberBody exampleLib2 exOnlyMd5 = .ok none
    ∧ main exampleLib2 (.ok (exInput [exDriver, exOnlyMd5])) =
        ⟨["000102030405060708090a0b0c0d0e0f101112131415161718191a1b1c1d1e1f *driver.sys\n"],
          none⟩ :=
  ⟨by rfl,
    ⟨.catalogNameValue (exNameValue "Filename" "a.txt"), by simp,
      by simp [QualifyingName, exNameValue]⟩,
    (unrecognized_hash_skipped exampleLib2 exOnlyMd5
      [.catalogNameValue (exNameValue "Filename" "a.txt"), .spcIndirectData exCabMd5]
      (by rfl)
      ⟨.catalogNameValue (exNameValue "Filename" "a.txt"), by simp,
        by simp [QualifyingName, exNameValue]⟩
      (by
        intro sid hsid
        have hs : sid = exCabMd5 := by simpa using hsid
        subst hs
        decide)).1,
    by rfl⟩

theorem selectStep_of_not_qualifying (st : Option catalogNameValue × Option spcIndirectData)
    (x : memberAttributeContent) (hn : ¬ QualifyingName x) (hd : ¬ QualifyingDigest x) :
    selectStep st x = st :=
  Prod.ext (selectStep_name_miss st x hn) (selectStep_digest_miss st x hd)

/-- C17: a content that is neither a NameValue named "Filename" nor an
IndirectDigestData for cabinet data with a SHA-1 or SHA-256 digest leaves the
pair of candidates as it was, so inserting it at, or removing it from, any
position of the flattened contents changes neither candidate nor the line or
failure that follows from them. -/
theorem non_qualifying_ignored (L : Lib) (x : memberAttributeContent)
    (hn : ¬ QualifyingName x) (hd : ¬ QualifyingDigest x) :
    (∀ st, selectStep st x = st)
    ∧ (∀ pre post, selectPair (pre ++ x :: post) = selectPair (pre ++ post))
    ∧ (∀ pre post, renderPair L (selectPair (pre ++ x :: post))
        = renderPair L (selectPair (pre ++ post))) := by
  have hstep : ∀ st, selectStep st x = st := fun st => selectStep_of_not_qualifying st x hn hd
  have hsel : ∀ pre post, selectPair (pre ++ x :: post) = selectPair (pre ++ post) := by
    intro pre post
    simp [selectPair, List.foldl_append, hstep]
  refine ⟨hstep, hsel, ?_⟩
  intro pre post
  rw [hsel]

theorem non_qualifying_ignored_witness :
    ¬ QualifyingName (.spcIndirectData exCabMd5)
    ∧ ¬ QualifyingDigest (.spcIndirectData exCabMd5)
    ∧ selectStep (some (exNameValue "Filename" "a.txt"), some exCabSha1)
        (.spcIndirectData exCabMd5)
        = (some (exNameValue "Filename" "a.txt"), some exCabSha1)
    ∧ selectPair ([.catalogNameValue (exNameValue "Filename" "a.txt"),
          .spcIndirectData exCabSha1] ++ .spcIndirectData exCabMd5 :: [])
        = selectPair ([.catalogNameValue (exNameValue "Filename" "a.txt"),
          .spcIndirectData exCabSha1] ++ []) :=
  ⟨by decide, by decide,
    (non_qualifying_ignored exampleLib (.spcIndirectData exCabMd5) (by decide) (by decide)).1 _,
    (non_qualifying_ignored exampleLib (.spcIndirectData exCabMd5) (by decide) (by decide)).2.1
      _ _⟩

/-! ## Claims on the hex field -/

theorem memberBody_line {L : Lib} {m : catalogListMember}
    {macses : List memberAttributeContent} {line : String}
    (hc : collectContents L m.Attributes [] = .ok macses)
    (hb : memberBody L m = .ok (some line)) :
    ∃ cnv sid name, selectPair macses = (some cnv, some sid)
      ∧ L.utf16DecoderBytes cnv.Value = .ok name
      ∧ line = lowerHex sid.MessageDigest.Digest ++ " " ++ "*" ++ name ++ "\n" := by
  rw [memberBody_of_contents hc] at hb
  have hsome := (renderPair_ok_isSome hb).mp rfl
  obtain ⟨cnv, hcnv⟩ := Option.isSome_iff_exists.mp hsome.1
  obtain ⟨sid, hsid⟩ := Option.isSome_iff_exists.mp hsome.2
  have hpair : selectPair macses = (some cnv, some sid) := Prod.ext hcnv hsid
  rw [hpair, renderPair_some] at hb
  cases hd : L.utf16DecoderBytes cnv.Value with
  | error err => rw [hd] at hb; cases hb
  | ok name =>
    rw [hd] at hb
    refine ⟨cnv, sid, name, hpair, hd, ?_⟩
    rw [← EncodeToString_eq_lowerHex, ← printfLine_marker]
    injection hb with hb
    injection hb with hb
    exact hb.symm

theorem lowerHexDigit_mem (n : Nat) (h : n < 16) :
    lowerHexDigit n ∈ "0123456789abcdef".toList := by
  interval_cases n <;> decide

theorem lowerHexDigit_ne_space (n : Nat) (h : n < 16) : (lowerHexDigit n != ' ') = true := by
  interval_cases n <;> decide

theorem hexValue_lowerHexDigit (n : Nat) (h : n < 16) : hexValue (lowerHexDigit n) = n := by
  interval_cases n <;> decide

theorem lowerHex_data_cons (b : Byte) (d : List Byte) :
    (lowerHex (b :: d)).data
      = lowerHexDigit (b.val / 16) :: lowerHexDigit (b.val % 16) :: (lowerHex d).data := by
  simp [lowerHex]

theorem lowerHex_data_nil : (lowerHex []).data = [] := rfl

theorem lowerHex_data_length (d : List Byte) : (lowerHex d).data.length = 2 * d.length := by
  induction d with
  | nil => rfl
  | cons b rest ih =>
    rw [lowerHex_data_cons]
    simp only [List.length_cons, ih]
    omega

theorem lowerHex_data_digit (d : List Byte) :
    ∀ c ∈ (lowerHex d).data, c ∈ "0123456789abcdef".toList ∧ (c != ' ') = true := by
  induction d with
  | nil => intro c hc; cases hc
  | cons b rest ih =>
    have h3 : b.val / 16 < 16 := by omega
    have h4 : b.val % 16 < 16 := Nat.mod_lt _ (by decide)
    rw [lowerHex_data_cons]
    intro c hc
    rcases List.mem_cons.mp hc with rfl | hc
    · exact ⟨lowerHexDigit_mem _ h3, lowerHexDigit_ne_space _ h3⟩
    rcases List.mem_cons.mp hc with rfl | hc
    · exact ⟨lowerHexDigit_mem _ h4, lowerHexDigit_ne_space _ h4⟩
    · exact ih c hc

theorem lowerHex_data_pair (d : List Byte) (k : Nat) (b : Byte) (hk : d[k]? = some b) :
    (lowerHex d).data[2 * k]? = some (lowerHexDigit (b.val / 16))
    ∧ (lowerHex d).data[2 * k + 1]? = some (lowerHexDigit (b.val % 16)) := by
  induction d generalizing k with
  | nil => simp at hk
  | cons a rest ih =>
    rw [lowerHex_data_cons]
    cases k with
    | zero =>
      simp only [List.getElem?_cons_zero, Option.some.injEq] at hk
      subst hk
      exact ⟨by simp, by simp⟩
    | succ j =>
      simp only [List.getElem?_cons_succ] at hk
      have h1 : 2 * (j + 1) = (2 * j + 1) + 1 := by omega
      rw [h1]
      simp only [List.getElem?_cons_succ]
      exact ih j hk

theorem hexField_line (d : List Byte) (name : String) :
    hexField (lowerHex d ++ " " ++ "*" ++ name ++ "\n") = (lowerHex d).data := by
  have hdata : (lowerHex d ++ " " ++ "*" ++ name ++ "\n").toList
      = (lowerHex d).data ++ (' ' :: ('*' :: (name.data ++ ['\n']))) := by
    simp [String.toList]
  unfold hexField
  rw [hdata, List.takeWhile_append_of_pos (fun c hc => (lowerHex_data_digit d c hc).2)]
  simp [List.takeWhile_cons]

/-- C13: in every output line the hex field, the text before the first space,
has twice as many characters as the winning digest has bytes, all of them among
`0123456789abcdef`, and its k-th pair of characters is the k-th digest byte in
hexadecimal, high digit first. -/
theorem hex_field_shape (L : Lib) (m : catalogListMember)
    (macses : List memberAttributeContent) (line : String)
    (hc : collectContents L m.Attributes [] = .ok macses)
    (hb : memberBody L m = .ok (some line)) :
    ∃ sid, (selectPair macses).2 = some sid
      ∧ (hexField line).length = 2 * sid.MessageDigest.Digest.length
      ∧ (∀ c ∈ hexField line, c ∈ "0123456789abcdef".toList)
      ∧ ∀ (k : Nat) (b : Byte), sid.MessageDigest.Digest[k]? = some b →
          ∃ hi lo, (hexField line)[2 * k]? = some hi ∧ (hexField line)[2 * k + 1]? = some lo
            ∧ hexValue hi * 16 + hexValue lo = b.val := by
  obtain ⟨cnv, sid, name, hpair, _, hline⟩ := memberBody_line hc hb
  refine ⟨sid, by rw [hpair], ?_, ?_, ?_⟩
  · rw [hline, hexField_line, lowerHex_data_length]
  · intro c hmem
    rw [hline, hexField_line] at hmem
    exact (lowerHex_data_digit _ c hmem).1
  · intro k b hk
    obtain ⟨h1, h2⟩ := lowerHex_data_pair _ k b hk
    refine ⟨_, _, by rw [hline, hexField_line]; exact h1, by rw [hline, hexField_line]; exact h2, ?_⟩
    have h3 : b.val / 16 < 16 := by omega
    have h4 : b.val % 16 < 16 := Nat.mod_lt _ (by decide)
    rw [hexValue_lowerHexDigit _ h3, hexValue_lowerHexDigit _ h4]
    omega

theorem hex_field_shape_witness :
    collectContents exampleLib exDriver.Attributes []
        = .ok [.catalogNameValue (exNameValue "Filename" "driver.sys"),
            .spcIndirectData exCabSha256]
    ∧ memberBody exampleLib exDriver
        = .ok (some
          "000102030405060708090a0b0c0d0e0f101112131415161718191a1b1c1d1e1f *driver.sys\n")
    ∧ hexField "000102030405060708090a0b0c0d0e0f101112131415161718191a1b1c1d1e1f *driver.sys\n"
        = "000102030405060708090a0b0c0d0e0f101112131415161718191a1b1c1d1e1f".toList
    ∧ ∃ sid, (selectPair [.catalogNameValue (exNameValue "Filename" "driver.sys"),
            .spcIndirectData exCabSha256]).2 = some sid
      ∧ (hexField
          "000102030405060708090a0b0c0d0e0f101112131415161718191a1b1c1d1e1f *driver.sys\n").length
          = 2 * sid.MessageDigest.Digest.length
      ∧ (∀ c ∈ hexField
          "000102030405060708090a0b0c0d0e0f101112131415161718191a1b1c1d1e1f *driver.sys\n",
          c ∈ "0123456789abcdef".toList)
      ∧ ∀ (k : Nat) (b : Byte), sid.MessageDigest.Digest[k]? = some b →
          ∃ hi lo,
            (hexField
              "000102030405060708090a0b0c0d0e0f101112131415161718191a1b1c1d1e1f *driver.sys\n")[
                2 * k]? = some hi
            ∧ (hexField
              "000102030405060708090a0b0c0d0e0f101112131415161718191a1b1c1d1e1f *driver.sys\n")[
                2 * k + 1]? = some lo
            ∧ hexValue hi * 16 + hexValue lo = b.val :=
  ⟨by rfl, by rfl, by decide, hex_field_shape exampleLib exDriver _ _ (by rfl) (by rfl)⟩

/-- C14 as stated fails: on the example input whose member carries a SHA-256
digest of two bytes, the run writes a line whose hex field has four
characters. -/
theorem short_digest_line :
    main exampleLib2 (.ok (exInput [exShort])) = ⟨["abcd *a.txt\n"], none⟩
    ∧ collectContents exampleLib2 exShort.Attributes []
        = .ok [.catalogNameValue (exNameValue "Filename" "a.txt"),
            .spcIndirectData exCabSha256Short]
    ∧ (selectPair [.catalogNameValue (exNameValue "Filename" "a.txt"),
            .spcIndirectData exCabSha256Short]).2 = some exCabSha256Short
    ∧ exCabSha256Short.MessageDigest.DigestAlgorithm.Algorithm.String = "2.16.840.1.101.3.4.2.1"
    ∧ (hexField "abcd *a.txt\n").length = 4
    ∧ (hexField "abcd *a.txt\n").length ≠ 64 :=
  ⟨by rfl, by rfl, by rfl, by decide, by decide, by decide⟩

/-- C14, amended: in every output line the winning digest has the SHA-1 or the
SHA-256 identifier and the hex field has twice as many characters as the digest
has bytes, hence 64 for a digest of 32 bytes and 40 for a digest of 20 bytes. -/
theorem hex_field_length (L : Lib) (m : catalogListMember)
    (macses : List memberAttributeContent) (line : String)
    (hc : collectContents L m.Attributes [] = .ok macses)
    (hb : memberBody L m = .ok (some line)) :
    ∃ sid, (selectPair macses).2 = some sid
      ∧ (sid.MessageDigest.DigestAlgorithm.Algorithm.String = "1.3.14.3.2.26"
          ∨ sid.MessageDigest.DigestAlgorithm.Algorithm.String = "2.16.840.1.101.3.4.2.1")
      ∧ (hexField line).length = 2 * sid.MessageDigest.Digest.length
      ∧ (sid.MessageDigest.Digest.length = 32 → (hexField line).length = 64)
      ∧ (sid.MessageDigest.Digest.length = 20 → (hexField line).length = 40) := by
  obtain ⟨cnv, sid, name, hpair, _, hline⟩ := memberBody_line hc hb
  have hlen : (hexField line).length = 2 * sid.MessageDigest.Digest.length := by
    rw [hline, hexField_line, lowerHex_data_length]
  have hqual : QualifyingDigest (.spcIndirectData sid) := by
    rcases selectPair_digest macses with ⟨hnone, _⟩ | ⟨pre, sid1, post, _, hq, _, hsel⟩
    · rw [hpair] at hnone
      cases hnone
    · rw [hpair] at hsel
      injection hsel with hsel
      subst hsel
      exact hq
  refine ⟨sid, by rw [hpair], hqual.2, hlen, ?_, ?_⟩
  · intro h; rw [hlen, h]
  · intro h; rw [hlen, h]

theorem hex_field_length_witness :
    collectContents exampleLib exTwoNames.Attributes []
        = .ok [.catalogNameValue (exNameValue "Filename" "a.txt"),
            .catalogNameValue (exNameValue "Filename" "b.txt"),
            .catalogNameValue (exNameValue "OSAttr" "2:6.1"),
            .spcIndirectData exPeSha256, .spcIndirectData exCabSha1, .spcIndirectData exCabMd5]
    ∧ memberBody exampleLib exTwoNames
        = .ok (some "abababababababababababababababababababab *b.txt\n")
    ∧ (hexField "abababababababababababababababababababab *b.txt\n").length = 40
    ∧ ∃ sid, (selectPair [.catalogNameValue (exNameValue "Filename" "a.txt"),
            .catalogNameValue (exNameValue "Filename" "b.txt"),
            .catalogNameValue (exNameValue "OSAttr" "2:6.1"),
            .spcIndirectData exPeSha256, .spcIndirectData exCabSha1,
            .spcIndirectData exCabMd5]).2 = some sid
      ∧ (sid.MessageDigest.DigestAlgorithm.Algorithm.String = "1.3.14.3.2.26"
          ∨ sid.MessageDigest.DigestAlgorithm.Algorithm.String = "2.16.840.1.101.3.4.2.1")
      ∧ (hexField "abababababababababababababababababababab *b.txt\n").length
          = 2 * sid.MessageDigest.Digest.length
      ∧ (sid.MessageDigest.Digest.length = 32 →
          (hexField "abababababababababababababababababababab *b.txt\n").length = 64)
      ∧ (sid.MessageDigest.Digest.length = 20 →
          (hexField "abababababababababababababababababababab *b.txt\n").length = 40) :=
  ⟨by rfl, by rfl, by decide, hex_field_length exampleLib exTwoNames _ _ (by rfl) (by rfl)⟩

/-! ## Claim on the fields that do not reach the output -/

theorem renderPair_congr (L : Lib) (s t : Option catalogNameValue × Option spcIndirectData)
    (h : visiblePair s = visiblePair t) : renderPair L s = renderPair L t := by
  obtain ⟨s1, s2⟩ := s
  obtain ⟨t1, t2⟩ := t
  simp only [visiblePair, Prod.mk.injEq] at h
  obtain ⟨hn, hd⟩ := h
  cases s1 <;> cases t1 <;> cases s2 <;> cases t2 <;>
    simp_all [renderPair]

theorem SameVisible.name_iff {x y : memberAttributeContent} (h : SameVisible x y) :
    QualifyingName x ↔ QualifyingName y := by
  cases x <;> cases y <;> simp_all [SameVisible, QualifyingName]

theorem SameVisible.digest_iff {x y : memberAttributeContent} (h : SameVisible x y) :
    QualifyingDigest x ↔ QualifyingDigest y := by
  cases x <;> cases y <;> simp_all [SameVisible, QualifyingDigest]

theorem selectStep_visible (s t : Option catalogNameValue × Option spcIndirectData)
    (x y : memberAttributeContent) (hxy : SameVisible x y)
    (hst : visiblePair s = visiblePair t) :
    visiblePair (selectStep s x) = visiblePair (selectStep t y) := by
  simp only [visiblePair, Prod.mk.injEq] at hst
  obtain ⟨hn, hd⟩ := hst
  have hname : (selectStep s x).1.map (fun cnv => cnv.Value)
      = (selectStep t y).1.map (fun cnv => cnv.Value) := by
    by_cases hq : QualifyingName x
    · have hq2 := hxy.name_iff.mp hq
      cases x with
      | spcIndirectData a => exact absurd hq (by simp [QualifyingName])
      | catalogNameValue a =>
        cases y with
        | spcIndirectData b => exact absurd hq2 (by simp [QualifyingName])
        | catalogNameValue b =>
          rw [selectStep_name_hit s a hq, selectStep_name_hit t b hq2]
          simp only [Option.map_some']
          rw [hxy.2]
    · have hq2 : ¬ QualifyingName y := fun h => hq (hxy.name_iff.mpr h)
      rw [selectStep_name_miss s x hq, selectStep_name_miss t y hq2]
      exact hn
  have hdig : (selectStep s x).2.map (fun sid => sid.MessageDigest.Digest)
      = (selectStep t y).2.map (fun sid => sid.MessageDigest.Digest) := by
    by_cases hq : QualifyingDigest x
    · have hq2 := hxy.digest_iff.mp hq
      cases x with
      | catalogNameValue a => exact absurd hq (by simp [QualifyingDigest])
      | spcIndirectData a =>
        cases y with
        | catalogNameValue b => exact absurd hq2 (by simp [QualifyingDigest])
        | spcIndirectData b =>
          rw [selectStep_digest_hit s a hq, selectStep_digest_hit t b hq2]
          simp only [Option.map_some']
          rw [hxy.2.2]
    · have hq2 : ¬ QualifyingDigest y := fun h => hq (hxy.digest_iff.mpr h)
      rw [selectStep_digest_miss s x hq, selectStep_digest_miss t y hq2]
      exact hd
  exact Prod.ext hname hdig

theorem foldl_selectStep_visible (xs ys : List memberAttributeContent)
    (h : List.Forall₂ SameVisible xs ys)
    (s t : Option catalogNameValue × Option spcIndirectData)
    (hst : visiblePair s = visiblePair t) :
    visiblePair (xs.foldl selectStep s) = visiblePair (ys.foldl selectStep t) := by
  induction h generalizing s t with
  | nil => exact hst
  | cons hxy _ ih =>
    simp only [List.foldl_cons]
    exact ih _ _ (selectStep_visible s t _ _ hxy hst)

theorem collectContents_same (L : Lib) (as bs : List memberAttribute)
    (h : List.Forall₂ (SameAttribute L) as bs) (acc1 acc2 : List memberAttributeContent)
    (hacc : List.Forall₂ SameVisible acc1 acc2) :
    (∃ p, collectContents L as acc1 = .error p ∧ collectContents L bs acc2 = .error p)
    ∨ (∃ c1 c2, collectContents L as acc1 = .ok c1 ∧ collectContents L bs acc2 = .ok c2
        ∧ List.Forall₂ SameVisible c1 c2) := by
  induction h generalizing acc1 acc2 with
  | nil => exact Or.inr ⟨acc1, acc2, rfl, rfl, hacc⟩
  | @cons a b as1 bs1 hab _ ih =>
    obtain ⟨hoid, hcases⟩ := hab
    rcases hcases with hun | ⟨ca, cb, ha, hb, hrel⟩
    · left
      have hunb : UnknownAttributeType b := by
        unfold UnknownAttributeType at hun ⊢
        rw [← hoid]
        exact hun
      refine ⟨.message (a.Oid.String ++ " defaulted"), ?_, ?_⟩
      · simp [collectContents, MemberAttributeContents_unknown L a hun]
      · simp [collectContents, MemberAttributeContents_unknown L b hunb, hoid]
    · have h1 : collectContents L (a :: as1) acc1 = collectContents L as1 (acc1 ++ ca) := by
        simp [collectContents, ha]
      have h2 : collectContents L (b :: bs1) acc2 = collectContents L bs1 (acc2 ++ cb) := by
        simp [collectContents, hb]
      rw [h1, h2]
      exact ih _ _ (List.rel_append hacc hrel)

theorem memberBody_same (L : Lib) (m n : catalogListMember) (h : SameMember L m n) :
    memberBody L m = memberBody L n := by
  rcases collectContents_same L m.Attributes n.Attributes h [] [] List.Forall₂.nil with
    ⟨p, h1, h2⟩ | ⟨c1, c2, h1, h2, hrel⟩
  · simp [memberBody, h1, h2]
  · rw [memberBody_of_contents h1, memberBody_of_contents h2]
    exact renderPair_congr L _ _ (foldl_selectStep_visible c1 c2 hrel _ _ rfl)

theorem memberLoop_same (L : Lib) (ms ns : List catalogListMember)
    (h : List.Forall₂ (SameMember L) ms ns) (out : List String) :
    memberLoop L ms out = memberLoop L ns out := by
  induction h generalizing out with
  | nil => rfl
  | @cons m n ms1 ns1 hmn _ ih =>
    have hb := memberBody_same L m n hmn
    cases hn : memberBody L n with
    | error p => simp [memberLoop, hb, hn]
    | ok r =>
      cases r with
      | none => simp [memberLoop, hb, hn, ih]
      | some line => simp [memberLoop, hb, hn, ih]

/-- C18: two decoded trust lists whose members agree, position by position, on
the attribute type identifiers and on the decoded name and value bytes, data
algorithm, digest algorithm and digest bytes give the same run: the same lines
and the same failure, whatever the member data, the flags, the algorithm
parameters, the other fields of the trust list and the fields of the
SignedData around it are. -/
theorem opaque_fields_ignored (L : Lib) (ctl1 ctl2 : certTrustList)
    (hsame : List.Forall₂ (SameMember L) ctl1.Members ctl2.Members) :
    memberLoop L ctl1.Members [] = memberLoop L ctl2.Members []
    ∧ ∀ b1 b2 : List Byte, unwrap L b1 = .ok ctl1 → unwrap L b2 = .ok ctl2 →
        main L (.ok b1) = main L (.ok b2) := by
  have hloop := memberLoop_same L ctl1.Members ctl2.Members hsame []
  refine ⟨hloop, ?_⟩
  intro b1 b2 h1 h2
  rw [main_of_unwrap h1, main_of_unwrap h2, hloop]

theorem opaque_fields_ignored_witness :
    List.Forall₂ (SameMember exampleLib2) exPlain.Members exPlainVariant.Members
    ∧ exPlain ≠ exPlainVariant
    ∧ memberLoop exampleLib2 exPlain.Members []
        = ⟨["abababababababababababababababababababab *a.txt\n"], none⟩
    ∧ memberLoop exampleLib2 exPlain.Members []
        = memberLoop exampleLib2 exPlainVariant.Members [] := by
  have hsame : List.Forall₂ (SameMember exampleLib2) exPlain.Members exPlainVariant.Members := by
    refine List.Forall₂.cons ?_ List.Forall₂.nil
    refine List.Forall₂.cons ⟨rfl, Or.inr ⟨[.catalogNameValue (exNameValue "Filename" "a.txt")],
      [.catalogNameValue (exNameValue "Filename" "a.txt")], by rfl, by rfl,
      List.Forall₂.cons ⟨rfl, rfl⟩ List.Forall₂.nil⟩⟩ ?_
    refine List.Forall₂.cons ⟨rfl, Or.inr ⟨[.spcIndirectData exCabSha1],
      [.spcIndirectData exCabSha1Bare], by rfl, by rfl,
      List.Forall₂.cons ⟨rfl, rfl, rfl⟩ List.Forall₂.nil⟩⟩ List.Forall₂.nil
  exact ⟨hsame, by decide, by rfl,
    (opaque_fields_ignored exampleLib2 exPlain exPlainVariant hsame).1⟩

/-! ## Claim on the name decoder -/

theorem char_range (c : Char) : c.toNat < 0xD800 ∨ (0xDFFF < c.toNat ∧ c.toNat < 0x110000) :=
  c.valid

theorem val_ofNat_byte (a : Nat) : ((Fin.ofNat a : Byte)).val = a % 256 := rfl

theorem codeUnits_cons2 (lo hi : Byte) (rest : List Byte) :
    codeUnits (lo :: hi :: rest)
      = (codeUnits rest).map fun us => (lo.val + 256 * hi.val) :: us := by
  simp [codeUnits]

theorem codeUnits_encodeChar (c : Char) (rest : List Byte) :
    codeUnits (encodeChar c ++ rest) = (codeUnits rest).map fun us => charUnits c ++ us := by
  have hr := char_range c
  unfold encodeChar charUnits
  by_cases h : c.toNat < 0x10000
  · simp only [h, if_true, List.cons_append, List.nil_append, codeUnits_cons2, val_ofNat_byte]
    have : c.toNat % 256 % 256 + 256 * (c.toNat / 256 % 256) = c.toNat := by omega
    rw [this]
  · simp only [h, if_false, List.cons_append, List.nil_append, codeUnits_cons2, val_ofNat_byte,
      Option.map_map]
    have h1 : (0xD800 + (c.toNat - 0x10000) / 0x400) % 256 % 256
        + 256 * ((0xD800 + (c.toNat - 0x10000) / 0x400) / 256 % 256)
        = 0xD800 + (c.toNat - 0x10000) / 0x400 := by omega
    have h2 : (0xDC00 + (c.toNat - 0x10000) % 0x400) % 256 % 256
        + 256 * ((0xDC00 + (c.toNat - 0x10000) % 0x400) / 256 % 256)
        = 0xDC00 + (c.toNat - 0x10000) % 0x400 := by omega
    rw [h1, h2]
    rfl

theorem decodeUnits_single (u : Nat) (rest : List Nat) (h : ¬ (0xD800 ≤ u ∧ u < 0xE000)) :
    decodeUnits (u :: rest) =
      match decodeUnits rest with
      | .error err => .error err
      | .ok cs => .ok (Char.ofNat u :: cs) := by
  cases rest with
  | nil => simp [decodeUnits, h]
  | cons v r =>
    have h1 : ¬ (0xD800 ≤ u ∧ u < 0xDC00) := by omega
    have h2 : ¬ (0xDC00 ≤ u ∧ u < 0xE000) := by omega
    rw [decodeUnits]
    simp only [h1, h2, if_false]

theorem decodeUnits_pair (u v : Nat) (rest : List Nat) (hu : 0xD800 ≤ u ∧ u < 0xDC00)
    (hv : 0xDC00 ≤ v ∧ v < 0xE000) :
    decodeUnits (u :: v :: rest) =
      match decodeUnits rest with
      | .error err => .error err
      | .ok cs => .ok (Char.ofNat (0x10000 + (u - 0xD800) * 0x400 + (v - 0xDC00)) :: cs) := by
  rw [decodeUnits]
  simp only [hu, hv, and_self, if_true]

theorem decodeUnits_charUnits (c : Char) (rest : List Nat) :
    decodeUnits (charUnits c ++ rest) =
      match decodeUnits rest with
      | .error err => .error err
      | .ok cs => .ok (c :: cs) := by
  have hr := char_range c
  unfold charUnits
  by_cases h : c.toNat < 0x10000
  · simp only [h, if_true, List.cons_append, List.nil_append]
    rw [decodeUnits_single _ _ (by omega), Char.ofNat_toNat]
  · simp only [h, if_false, List.cons_append, List.nil_append]
    rw [decodeUnits_pair _ _ _ (by omega) (by omega)]
    have : 0x10000 + (0xD800 + (c.toNat - 0x10000) / 0x400 - 0xD800) * 0x400
        + (0xDC00 + (c.toNat - 0x10000) % 0x400 - 0xDC00) = c.toNat := by omega
    rw [this, Char.ofNat_toNat]

theorem codeUnits_encode (cs : List Char) :
    codeUnits (cs.flatMap encodeChar) = some (cs.flatMap charUnits) := by
  induction cs with
  | nil => rfl
  | cons c rest ih =>
    simp only [List.flatMap_cons]
    rw [codeUnits_encodeChar, ih]
    rfl

theorem decodeUnits_encode (cs : List Char) : decodeUnits (cs.flatMap charUnits) = .ok cs := by
  induction cs with
  | nil => rfl
  | cons c rest ih =>
    simp only [List.flatMap_cons]
    rw [decodeUnits_charUnits, ih]

/-- C16: for every text, the name decoder applied to its encoding in
little-endian 16-bit code units without byte-order mark gives the text back,
and encoding what was decoded gives the original bytes; characters above
0xFFFF, encoded as surrogate pairs, are included. -/
theorem utf16_roundtrip (s : String) :
    utf16leDecode (utf16leEncode s) = .ok s
    ∧ ∀ t, utf16leDecode (utf16leEncode s) = .ok t → utf16leEncode t = utf16leEncode s := by
  have h : utf16leDecode (utf16leEncode s) = .ok s := by
    unfold utf16leDecode utf16leEncode
    simp only [String.toList, codeUnits_encode, decodeUnits_encode]
  refine ⟨h, ?_⟩
  intro t ht
  rw [h] at ht
  injection ht with ht
  rw [ht]

theorem utf16_roundtrip_witness :
    utf16leEncode (String.mk [Char.ofNat 0x61, Char.ofNat 0x1F600, Char.ofNat 0xE9])
        = [0x61, 0x00, 0x3D, 0xD8, 0x00, 0xDE, 0xE9, 0x00]
    ∧ utf16leDecode [0x61, 0x00, 0x3D, 0xD8, 0x00, 0xDE, 0xE9, 0x00]
        = .ok (String.mk [Char.ofNat 0x61, Char.ofNat 0x1F600, Char.ofNat 0xE9])
    ∧ utf16leDecode
        (utf16leEncode (String.mk [Char.ofNat 0x61, Char.ofNat 0x1F600, Char.ofNat 0xE9]))
        = .ok (String.mk [Char.ofNat 0x61, Char.ofNat 0x1F600, Char.ofNat 0xE9]) :=
  ⟨by decide, by rfl,
    (utf16_roundtrip (String.mk [Char.ofNat 0x61, Char.ofNat 0x1F600, Char.ofNat 0xE9])).1⟩

/-! ## Claim on the contents of an attribute -/

/-- The contents that `decodeEntries` gives: as many as entries, in entry
order, the one at position `i` being the value behind `ptr` after the entry at
position `i` was unmarshalled into what the earlier entries left there. -/
theorem decodeEntries_ok_contents {α : Type} (unmarshal : List Byte → α → Except Error α)
    (wrap : α → memberAttributeContent) (entries : List RawValue) (cur : α)
    (macs r : List memberAttributeContent)
    (h : decodeEntries unmarshal wrap entries cur macs = .ok r) :
    r.length = macs.length + entries.length
    ∧ (∀ (i : Nat) (mac : memberAttributeContent), macs[i]? = some mac → r[i]? = some mac)
    ∧ ∀ (i : Nat) (c : RawValue), entries[i]? = some c →
        ∃ before v, targetAfter unmarshal (entries.take i) cur = .ok before
          ∧ unmarshal c.FullBytes before = .ok v
          ∧ r[macs.length + i]? = some (wrap v) := by
  induction entries generalizing cur macs with
  | nil =>
    simp only [decodeEntries] at h
    injection h with h
    subst h
    exact ⟨by simp, fun i mac hi => hi, fun i c hc => by simp at hc⟩
  | cons e rest ih =>
    cases hu : unmarshal e.FullBytes cur with
    | error err => simp [decodeEntries, hu] at h
    | ok cur1 =>
      simp only [decodeEntries, hu] at h
      obtain ⟨hlen, hkeep, hat⟩ := ih cur1 (macs ++ [wrap cur1]) h
      refine ⟨?_, ?_, ?_⟩
      · rw [hlen]
        simp only [List.length_append, List.length_cons, List.length_nil]
        omega
      · intro i mac hi
        apply hkeep
        have hlt : i < macs.length := (List.getElem?_eq_some_iff.mp hi).1
        rw [List.getElem?_append_left hlt]
        exact hi
      · intro i c hc
        cases i with
        | zero =>
          simp only [List.getElem?_cons_zero, Option.some.injEq] at hc
          subst hc
          refine ⟨cur, cur1, rfl, hu, ?_⟩
          apply hkeep
          simp
        | succ j =>
          simp only [List.getElem?_cons_succ] at hc
          obtain ⟨before, v, htarget, hv, hr⟩ := hat j c hc
          refine ⟨before, v, by simp [targetAfter, hu, htarget], hv, ?_⟩
          have hidx : (macs ++ [wrap cur1]).length + j = macs.length + (j + 1) := by
            simp only [List.length_append, List.length_cons, List.length_nil]
            omega
          rw [← hidx]
          exact hr

/-- C12 fails on the code: the entries of an attribute are unmarshalled one
after the other into the same target.  On an indirect-data attribute whose
first entry has NULL algorithm parameters and whose second entry has none, the
second content carries the parameters of the first entry, while the second
entry in an attribute of its own decodes without parameters. -/
theorem shared_target_keeps_parameters :
    MemberAttributeContents exampleLib2 (exDigestAttribute [exCabSha256, exCabSha1Bare])
        = .ok [.spcIndirectData exCabSha256, .spcIndirectData exCabSha1]
    ∧ MemberAttributeContents exampleLib2 (exDigestAttribute [exCabSha1Bare])
        = .ok [.spcIndirectData exCabSha1Bare]
    ∧ exCabSha1 ≠ exCabSha1Bare
    ∧ exCabSha1.Data.Parameters = exCabSha256.Data.Parameters
    ∧ exCabSha1Bare.Data.Parameters = RawValue.zero :=
  ⟨by rfl, by rfl, by decide, by rfl, by rfl⟩

end Cat2sha
